import Mathlib

/-!
# CpGrid::scatterGrid: distributed index and interface construction

A shallow embedding of `opm/grid/cpgrid/CpGrid.cpp`: the helpers
`reserveInterface`, `setupSendInterface`, `setupRecvInterface` of the anonymous
namespace and the orchestrating member function `CpGrid::scatterGrid`.

Conventions of the embedding.

* `int` values are mathematical integers (`Int`).  The only place where the
  width of `int` enters the algorithm is the constant
  `std::numeric_limits<int>::max()`, kept as `INT_MAX`.  The counters
  `cellIndex` and `localIndex` are bounded by the length of the list that is
  walked, so they stay inside `int` for every list shorter than `2^31`.
* `std::vector` is `List`, `std::map<int, V>` is an association list ordered by
  key, `std::tuple` is a structure with the fields `get0`, `get1`, ...
* Code of other libraries (the index list of an interface, the parallel index
  set, the partitioner, the overlap expansion, the grid materializer) is not
  in the sources and is modelled from the specification or passed as a
  parameter; each such definition says so.
-/

namespace OpmGrid

/-! ## Data model -/

/-- The constant `std::numeric_limits<int>::max()` of a 32 bit `int`. -/
def INT_MAX : Int := 2147483647

/-- Export entry `std::tuple<int, int, char>`: global index, destination rank,
attribute code. -/
structure ExportEntry where
  get0 : Int
  get1 : Int
  get2 : Char
deriving DecidableEq, Repr

/-- Import entry `std::tuple<int, int, char, int>`: global index, source rank,
attribute code, local index. -/
structure ImportEntry where
  get0 : Int
  get1 : Int
  get2 : Char
  get3 : Int
deriving DecidableEq, Repr

/-- Modelled from the spec: the index list `InterfaceInformation` of the
communication library, which is not part of the sources.  It is a list of local
indices in insertion order together with the reserved capacity; `reserve` only
sets the capacity ("no side effects beyond capacity reservation") and `add`
appends one index at the end. -/
structure InterfaceInformation where
  indices : List Int
  capacity : Nat
deriving DecidableEq, Repr

/-- Modelled from the spec: the default constructed (empty) index list. -/
def InterfaceInformation.empty : InterfaceInformation := ⟨[], 0⟩

/-- Modelled from the spec: `InterfaceInformation::reserve`, capacity only. -/
def InterfaceInformation.reserve (info : InterfaceInformation) (size : Nat) :
    InterfaceInformation :=
  { info with capacity := size }

/-- Modelled from the spec: `InterfaceInformation::add`, append at the end. -/
def InterfaceInformation.add (info : InterfaceInformation) (index : Int) :
    InterfaceInformation :=
  { info with indices := info.indices ++ [index] }

/-- The mapped type of the interface map: (send list, receive list). -/
abbrev InterfacePair := InterfaceInformation × InterfaceInformation

/-- The value a `std::map` inserts for a missing key of the interface map. -/
def InterfacePair.empty : InterfacePair :=
  (InterfaceInformation.empty, InterfaceInformation.empty)

/-! ## `std::map<int, V>` -/

/-- Lookup `std::map::find` in a map kept as association list. -/
def mapFind {V : Type} : List (Int × V) → Int → Option V
  | [], _ => none
  | (k, v) :: rest, key => if key = k then some v else mapFind rest key

/-- Store a value under a key, keeping the list ordered by key as a `std::map`
is; an existing key keeps its place. -/
def mapPut {V : Type} : List (Int × V) → Int → V → List (Int × V)
  | [], key, val => [(key, val)]
  | (k, v) :: rest, key, val =>
    if key < k then (key, val) :: (k, v) :: rest
    else if key = k then (k, val) :: rest
    else (k, v) :: mapPut rest key val

/-- The statement `f(m[key])` for a mutating `f`: `operator[]` inserts the
default value `dflt` when the key is missing and the referenced slot is then
updated by `f`. -/
def mapUpdate {V : Type} (dflt : V) (m : List (Int × V)) (key : Int) (f : V → V) :
    List (Int × V) :=
  mapPut m key (f ((mapFind m key).getD dflt))

/-- `Dune::CpGrid::InterfaceMap`, the map rank -> (send list, receive list). -/
abbrev InterfaceMap := List (Int × InterfacePair)

/-! ## The helpers of the anonymous namespace -/

/-- First loop of `reserveInterface`: `++proc_to_no_cells[std::get<1>(entry)]`
for every entry, starting from the empty map. -/
def countProcs {T : Type} (get1 : T → Int) (list : List T) : List (Int × Nat) :=
  list.foldl (fun proc_to_no_cells entry =>
    mapUpdate 0 proc_to_no_cells (get1 entry) (fun n => n + 1)) []

/-- `reserveInterface(list, interface, integral_constant<bool, first>)`. -/
def reserveInterface {T : Type} (get1 : T → Int) (list : List T)
    (interface : InterfaceMap) (first : Bool) : InterfaceMap :=
  (countProcs get1 list).foldl (fun m proc =>
    mapUpdate InterfacePair.empty m proc.1 (fun entry =>
      if first then (entry.1.reserve proc.2, entry.2)
      else (entry.1, entry.2.reserve proc.2))) interface

/-- The variables of the loop of `setupSendInterface`.  `assertOk` records
whether the `assert` of the loop body evaluated to true at every entry so far;
the assertion has no effect on the other variables. -/
structure SendState where
  cellIndex : Int
  oldIndex : Int
  interface : InterfaceMap
  assertOk : Bool
deriving DecidableEq, Repr

/-- One iteration of the loop of `setupSendInterface`. -/
def sendStep (st : SendState) (entry : ExportEntry) : SendState :=
  let index := entry.get0
  let ok := st.assertOk && (decide (st.oldIndex = INT_MAX) || decide (index ≥ st.oldIndex))
  let oldIndex := if index ≠ st.oldIndex then index else st.oldIndex
  let cellIndex := if index ≠ st.oldIndex then st.cellIndex + 1 else st.cellIndex
  { cellIndex := cellIndex
    oldIndex := oldIndex
    interface := mapUpdate InterfacePair.empty st.interface entry.get1
      (fun e => (e.1.add cellIndex, e.2))
    assertOk := ok }

/-- The state of `setupSendInterface` when the loop has finished. -/
def setupSendInterfaceState (list : List ExportEntry) (interface : InterfaceMap) :
    SendState :=
  list.foldl sendStep
    { cellIndex := -1
      oldIndex := INT_MAX
      interface := reserveInterface ExportEntry.get1 list interface true
      assertOk := true }

/-- `setupSendInterface(list, interface)`: the interface map afterwards. -/
def setupSendInterface (list : List ExportEntry) (interface : InterfaceMap) :
    InterfaceMap :=
  (setupSendInterfaceState list interface).interface

/-- The loop of `setupSendInterface` in a build with assertions: it runs up to
the first entry at which the `assert` fails; the state is then the one reached
before that entry, with `assertOk` false. -/
def sendLoopChecked : List ExportEntry → SendState → SendState
  | [], st => st
  | entry :: rest, st =>
    if (sendStep st entry).assertOk then sendLoopChecked rest (sendStep st entry)
    else { st with assertOk := false }

/-- The state of `setupSendInterface` in a build with assertions when the loop
has finished or has been stopped by the `assert`. -/
def setupSendInterfaceChecked (list : List ExportEntry) (interface : InterfaceMap) :
    SendState :=
  sendLoopChecked list
    { cellIndex := -1
      oldIndex := INT_MAX
      interface := reserveInterface ExportEntry.get1 list interface true
      assertOk := true }

/-- One iteration of the loop of `setupRecvInterface`. -/
def recvStep (interface : InterfaceMap) (entry : ImportEntry) : InterfaceMap :=
  let index := entry.get3
  mapUpdate InterfacePair.empty interface entry.get1 (fun e => (e.1, e.2.add index))

/-- `setupRecvInterface(list, interface)`: the interface map afterwards. -/
def setupRecvInterface (list : List ImportEntry) (interface : InterfaceMap) :
    InterfaceMap :=
  list.foldl recvStep (reserveInterface ImportEntry.get1 list interface false)

/-- The send list stored for a rank; a rank without entry has no send list. -/
def sendList (interface : InterfaceMap) (rank : Int) : List Int :=
  match mapFind interface rank with
  | some e => e.1.indices
  | none => []

/-- The receive list stored for a rank; a rank without entry has none. -/
def recvList (interface : InterfaceMap) (rank : Int) : List Int :=
  match mapFind interface rank with
  | some e => e.2.indices
  | none => []

/-! ## Local index assignment of `scatterGrid` -/

/-- The lambda `compareImport` of `scatterGrid`: global index only. -/
def compareImport (t1 t2 : ImportEntry) : Bool :=
  decide (t1.get0 < t2.get0)

/-- Inner loop of the merge of two ranges: `x` is the current front of the
first range, `rest` continues with the remainder of the first range, and the
argument is what is left of the second range.  The front of the second range is
moved only when it compares less than `x`. -/
def mergeFront {α : Type} (comp : α → α → Bool) (x : α) (rest : List α → List α) :
    List α → List α
  | [] => x :: rest []
  | y :: ys => if comp y x then y :: mergeFront comp x rest ys else x :: rest (y :: ys)

/-- Merge of two ranges as the standard library does it (`std::merge`, on which
the result of `std::inplace_merge` is defined): while both ranges are non-empty
the front `y` of the second range is moved if `comp(y, x)` holds for the front
`x` of the first range, otherwise `x` is moved; the rest is copied. -/
def mergeRanges {α : Type} (comp : α → α → Bool) : List α → List α → List α
  | [] => fun ys => ys
  | x :: xs => mergeFront comp x (mergeRanges comp xs)

/-- `std::inplace_merge(v.begin(), v.begin() + middle, v.end(), comp)`. -/
def inplace_merge {α : Type} (v : List α) (middle : Nat) (comp : α → α → Bool) :
    List α :=
  mergeRanges comp (v.take middle) (v.drop middle)

/-- The loop `for (auto&& entry : importList) std::get<3>(entry) = localIndex++;`
started with the given value of `localIndex`. -/
def numberEntries : Int → List ImportEntry → List ImportEntry
  | _, [] => []
  | localIndex, entry :: rest =>
    { entry with get3 := localIndex } :: numberEntries (localIndex + 1) rest

/-- Lines 201 to 217 of `scatterGrid`: merge (when not owners first), number,
merge (when owners first).  `ownersFirst` is a local constant `false` in the
source; it is a parameter here so that both branches can be examined. -/
def assignLocalIndices (ownersFirst : Bool) (noImportedOwner : Nat)
    (importList : List ImportEntry) : List ImportEntry :=
  let merged :=
    if !ownersFirst then inplace_merge importList noImportedOwner compareImport
    else importList
  let numbered := numberEntries 0 merged
  if ownersFirst then inplace_merge numbered noImportedOwner compareImport
  else numbered

/-! ## The parallel index set -/

/-- Modelled from the spec: the ownership attribute `AttributeSet` of the
communication library (not in the sources), obtained from the stored attribute
code by the conversion `AttributeSet(code)`, which keeps the code's value. -/
structure AttributeSet where
  code : Char
deriving DecidableEq, Repr

/-- Modelled from the spec: `ParallelIndexSet::LocalIndex(localIndex, attr,
isPublic)`, the value stored for a global index. -/
structure LocalIndex where
  localIndex : Int
  attr : AttributeSet
  isPublic : Bool
deriving DecidableEq, Repr

/-- Modelled from the spec: the states of an index set, closed or open for bulk
insertion. -/
inductive IndexSetState where
  | GROUND
  | RESIZE
deriving DecidableEq, Repr

/-- Modelled from the spec: the `ParallelIndexSet` of the communication library
(not in the sources) as the sequence of records (global index, local index
record) in the order they were added, with its insertion state. -/
structure ParallelIndexSet where
  state : IndexSetState
  records : List (Int × LocalIndex)
deriving DecidableEq, Repr

/-- Modelled from the spec: a newly created index set is empty and closed. -/
def ParallelIndexSet.empty : ParallelIndexSet := ⟨IndexSetState.GROUND, []⟩

/-- Modelled from the spec: open the index set for bulk insertion. -/
def ParallelIndexSet.beginResize (s : ParallelIndexSet) : ParallelIndexSet :=
  { s with state := IndexSetState.RESIZE }

/-- Modelled from the spec: add one record. -/
def ParallelIndexSet.add (s : ParallelIndexSet) (global : Int) (li : LocalIndex) :
    ParallelIndexSet :=
  { s with records := s.records ++ [(global, li)] }

/-- Modelled from the spec: close the index set for bulk insertion. -/
def ParallelIndexSet.endResize (s : ParallelIndexSet) : ParallelIndexSet :=
  { s with state := IndexSetState.GROUND }

/-- Lines 221 to 226 of `scatterGrid`: `beginResize`, one `add` per import
entry, `endResize`. -/
def populateIndexSet (importList : List ImportEntry) (s : ParallelIndexSet) :
    ParallelIndexSet :=
  (importList.foldl (fun acc entry =>
    acc.add entry.get0 ⟨entry.get3, AttributeSet.mk entry.get2, true⟩) s.beginResize).endResize

/-! ## The grid and `CpGrid::scatterGrid` -/

/-- The communicator `ccobj_`: what `size()` and `rank()` return. -/
structure CollectiveCommunication where
  size : Int
  rank : Int
deriving DecidableEq, Repr

/-- Modelled from the spec: the part of `cpgrid::CpGridData` (declared outside
the sources) that `scatterGrid` touches: the communicator, the cell index set
and the rows of the table `cell_to_face_`, whose number is the local cell
count. -/
structure CpGridData where
  ccobj_ : CollectiveCommunication
  cell_indexset_ : ParallelIndexSet
  cell_to_face_ : List (List Int)
deriving DecidableEq, Repr

/-- Modelled from the spec: `new cpgrid::CpGridData(cc)`, a fresh instance with
an empty index set and no cells. -/
def CpGridData.create (cc : CollectiveCommunication) : CpGridData :=
  { ccobj_ := cc, cell_indexset_ := ParallelIndexSet.empty, cell_to_face_ := [] }

/-- The object the raw pointer `current_view_data_` points to. -/
inductive ViewPointer where
  | data
  | distributed
deriving DecidableEq, Repr

/-- The data members of `Dune::CpGrid`. -/
structure CpGrid where
  data_ : CpGridData
  current_view_data_ : ViewPointer
  distributed_data_ : Option CpGridData
  cell_scatter_gather_interfaces_ : InterfaceMap
deriving DecidableEq, Repr

/-- The constructor `CpGrid::CpGrid()` for given undistributed data. -/
def CpGrid.create (data : CpGridData) : CpGrid :=
  { data_ := data
    current_view_data_ := ViewPointer.data
    distributed_data_ := none
    cell_scatter_gather_interfaces_ := [] }

/-- The data `*current_view_data_`. -/
def CpGrid.currentView (grid : CpGrid) : CpGridData :=
  match grid.current_view_data_ with
  | ViewPointer.data => grid.data_
  | ViewPointer.distributed => grid.distributed_data_.getD grid.data_

/-- What `zoltanGraphPartitionGridOnRoot` returns: cell to rank assignment,
defunct well names, export list, import list. -/
structure PartitionResult where
  cell_part : List Int
  defunct_wells : Finset String
  exportList : List ExportEntry
  importList : List ImportEntry

/-- What `addOverlapLayer` leaves behind: the number of imported owner entries
it returns and the two lists it has extended in place. -/
structure OverlapResult where
  noImportedOwner : Nat
  exportList : List ExportEntry
  importList : List ImportEntry

/-- The build configuration and the functions of other translation units that
`scatterGrid` calls; they are parameters of the embedding.  `NDEBUG` says that
the build compiles `assert` out.  The partitioner is taken with the arguments
`wells`, `transmissibilities`, `method` of the call already supplied. -/
structure Env where
  HAVE_MPI : Bool
  HAVE_ZOLTAN : Bool
  NDEBUG : Bool
  zoltanGraphPartitionGridOnRoot : CpGrid → PartitionResult
  addOverlapLayer : CpGrid → List Int → List ExportEntry → List ImportEntry → OverlapResult
  distributeGlobalGrid : CpGridData → CpGrid → CpGridData → List Int → CpGridData

/-- What a caller observes of a call besides the state of the grid: output on
the two streams and the calls of the collaborators. -/
inductive Event where
  | cerr (msg : String)
  | cout (msg : String)
  | partitionerCalled
  | overlapLayerAdded
  | indexSetBuilt
  | interfacesBuilt
  | gridMaterialized
deriving DecidableEq, Repr

/-- How a call of `scatterGrid` ends: with a returned pair, with a thrown
`std::runtime_error`, or with the process aborted by a failed `assert`. -/
inductive ScatterResult where
  | returned (success : Bool) (wells : Finset String)
  | thrown (what : String)
  | aborted
deriving DecidableEq

/-- A finished call of `scatterGrid`: the grid afterwards, what happened, and
how the call ended.  For an aborted call the grid is the members as they were
when the assertion failed. -/
structure Outcome where
  grid : CpGrid
  events : List Event
  result : ScatterResult

/-- The text streamed into `message` in `scatterGrid`. -/
def loadbalanceMessage (my_num num_cells : Int) : String :=
  "After loadbalancing process " ++ toString my_num ++ " has " ++
    toString num_cells ++ " cells."

/-- The member function `CpGrid::scatterGrid`.  In a build with assertions
(`NDEBUG` not set) a failed `assert` in `setupSendInterface` aborts the process
inside that call: the distributed instance and its index set exist, the
interface map is filled up to the failing entry, and nothing after line 232
runs. -/
def scatterGrid (env : Env) (grid : CpGrid) : Outcome :=
  if grid.distributed_data_.isSome then
    { grid := grid
      events := [Event.cerr
        "There is already a distributed version of the grid. Maybe scatterGrid was called before?\n"]
      result := ScatterResult.returned false ∅ }
  else if env.HAVE_MPI then
    let cc := grid.data_.ccobj_
    if cc.size > 1 then
      let my_num := cc.rank
      if env.HAVE_ZOLTAN then
        let part_and_wells := env.zoltanGraphPartitionGridOnRoot grid
        let cell_part := part_and_wells.cell_part
        let defunct_wells := part_and_wells.defunct_wells
        let ownersFirst := false
        let overlap := env.addOverlapLayer grid cell_part part_and_wells.exportList
          part_and_wells.importList
        let exportList := overlap.exportList
        let importList := assignLocalIndices ownersFirst overlap.noImportedOwner
          overlap.importList
        let fresh := CpGridData.create cc
        let indexed := { fresh with
          cell_indexset_ := populateIndexSet importList fresh.cell_indexset_ }
        let checked := setupSendInterfaceChecked exportList []
        if !env.NDEBUG && !checked.assertOk then
          { grid := { grid with
              distributed_data_ := some indexed
              cell_scatter_gather_interfaces_ := checked.interface }
            events := [Event.partitionerCalled, Event.overlapLayerAdded, Event.indexSetBuilt]
            result := ScatterResult.aborted }
        else
          let interfaces := setupRecvInterface importList (setupSendInterface exportList [])
          let grid1 := { grid with
            distributed_data_ := some indexed
            cell_scatter_gather_interfaces_ := interfaces }
          let distributed := env.distributeGlobalGrid indexed grid1 grid1.currentView cell_part
          let grid2 := { grid1 with distributed_data_ := some distributed }
          let num_cells : Int := distributed.cell_to_face_.length
          let message := loadbalanceMessage my_num num_cells
          let steps := [Event.partitionerCalled, Event.overlapLayerAdded, Event.indexSetBuilt,
            Event.interfacesBuilt, Event.gridMaterialized]
          if num_cells = 0 then
            { grid := grid2
              events := steps
              result := ScatterResult.thrown (message ++ " Aborting.") }
          else
            { grid := { grid2 with current_view_data_ := ViewPointer.distributed }
              events := steps ++ [Event.cout (message ++ "\n")]
              result := ScatterResult.returned true defunct_wells }
      else
        { grid := grid
          events := []
          result := ScatterResult.thrown "Parallel runs depend on ZOLTAN. Please install!" }
    else
      { grid := grid
        events := [Event.cerr
          "CpGrid::scatterGrid() only makes sense in a parallel run. This run only uses one process.\n"]
        result := ScatterResult.returned false ∅ }
  else
    { grid := grid
      events := [Event.cerr
        "CpGrid::scatterGrid() is non-trivial only with MPI support and if the target Dune platform is sufficiently recent.\n"]
      result := ScatterResult.returned false ∅ }

/-! ## Notions used by the statements -/

/-- The distinct global indices of an export list. -/
def distinctGlobals (list : List ExportEntry) : List Int :=
  (list.map ExportEntry.get0).dedup

/-- The 0-based position of a global index among the distinct global indices of
an export list. -/
def exportPosition (list : List ExportEntry) (global : Int) : Int :=
  ((distinctGlobals list).indexOf global : Nat)

/-- The send list the specification describes for a rank: over the export
entries destined for the rank, in list order, the position of the global index
among the distinct global indices of the whole list. -/
def expectedSendList (list : List ExportEntry) (rank : Int) : List Int :=
  (list.filter (fun e => decide (e.get1 = rank))).map
    (fun e => exportPosition list e.get0)

/-- An export list is sorted ascending by global index. -/
def exportSorted (list : List ExportEntry) : Prop :=
  List.Sorted (fun a b : Int => a ≤ b) (list.map ExportEntry.get0)

instance (list : List ExportEntry) : Decidable (exportSorted list) :=
  inferInstanceAs (Decidable (List.Sorted (fun a b : Int => a ≤ b) (list.map ExportEntry.get0)))

/-- The receive list the specification describes for a rank: the local index
fields of the import entries from that rank, in list order. -/
def expectedRecvList (list : List ImportEntry) (rank : Int) : List Int :=
  (list.filter (fun e => decide (e.get1 = rank))).map ImportEntry.get3

/-- Every receive list stored in the interface map is empty. -/
def recvListsEmpty (interface : InterfaceMap) : Prop :=
  ∀ p ∈ interface, p.2.2.indices = []

instance (interface : InterfaceMap) : Decidable (recvListsEmpty interface) :=
  inferInstanceAs (Decidable (∀ p ∈ interface, p.2.2.indices = []))

/-- An import list, or a sub-range of it, is sorted ascending by global
index. -/
def importSorted (list : List ImportEntry) : Prop :=
  list.Pairwise (fun a b : ImportEntry => a.get0 ≤ b.get0)

instance (list : List ImportEntry) : Decidable (importSorted list) :=
  inferInstanceAs (Decidable (list.Pairwise (fun a b : ImportEntry => a.get0 ≤ b.get0)))

/-- The local indices `0, ..., n - 1` in increasing order. -/
def localIndexRange (n : Nat) : List Int :=
  (List.range n).map (fun i : Nat => (i : Int))

/-- The record the specification describes for one import entry: global index,
assigned local index, the attribute given by the attribute code, public. -/
def expectedRecord (entry : ImportEntry) : Int × LocalIndex :=
  (entry.get0, LocalIndex.mk entry.get3 (AttributeSet.mk entry.get2) true)

/-- The local index an assigned import list gives to a global index: the local
index field of the entry holding that global index, if there is one. -/
def assignedLocalIndex (assigned : List ImportEntry) (global : Int) : Option Int :=
  (assigned.find? (fun e => decide (e.get0 = global))).map ImportEntry.get3

/-- A call ended with a thrown `std::runtime_error`. -/
def ScatterResult.isThrown : ScatterResult → Bool
  | ScatterResult.thrown _ => true
  | ScatterResult.returned _ _ => false
  | ScatterResult.aborted => false

/-- The export list that `scatterGrid` hands to `setupSendInterface`: the one
of the partitioner as extended by the overlap expansion. -/
def scatterExportList (env : Env) (grid : CpGrid) : List ExportEntry :=
  (env.addOverlapLayer grid (env.zoltanGraphPartitionGridOnRoot grid).cell_part
    (env.zoltanGraphPartitionGridOnRoot grid).exportList
    (env.zoltanGraphPartitionGridOnRoot grid).importList).exportList

/-- The sortedness check of `setupSendInterface` does not stop the call: the
build has no assertions, or the assertion holds at every entry of the export
list. -/
def exportCheckPasses (env : Env) (grid : CpGrid) : Prop :=
  env.NDEBUG = true ∨
    (setupSendInterfaceState (scatterExportList env grid) []).assertOk = true

instance (env : Env) (grid : CpGrid) : Decidable (exportCheckPasses env grid) :=
  inferInstanceAs (Decidable (env.NDEBUG = true ∨
    (setupSendInterfaceState (scatterExportList env grid) []).assertOk = true))

/-- An event is output on the error stream. -/
def Event.isCerr : Event → Bool
  | Event.cerr _ => true
  | _ => false

/-- A sample partitioning for two processes: the lists of the specification's
scenarios, one defunct well, an overlap expansion reporting two owner entries
and a materializer creating one cell per record of the index set. -/
def sampleEnv : Env :=
  { HAVE_MPI := true
    HAVE_ZOLTAN := true
    NDEBUG := false
    zoltanGraphPartitionGridOnRoot := fun _ =>
      { cell_part := [0, 1, 0]
        defunct_wells := {"W1"}
        exportList := [⟨5, 1, 'o'⟩, ⟨5, 2, 'o'⟩, ⟨9, 2, 'o'⟩]
        importList := [⟨5, 0, 'o', 0⟩, ⟨9, 0, 'o', 0⟩, ⟨3, 0, 'c', 0⟩] }
    addOverlapLayer := fun _ _ exportList importList =>
      { noImportedOwner := 2, exportList := exportList, importList := importList }
    distributeGlobalGrid := fun target _ _ _ =>
      { target with cell_to_face_ := target.cell_indexset_.records.map (fun _ => []) } }

/-- The sample partitioning with a materializer that creates no cell. -/
def sampleEnvNoCells : Env :=
  { sampleEnv with distributeGlobalGrid := fun target _ _ _ => target }

/-- A grid that has not been distributed, on rank 0 of the given number of
processes. -/
def sampleGrid (processes : Int) : CpGrid :=
  CpGrid.create
    { ccobj_ := ⟨processes, 0⟩
      cell_indexset_ := ParallelIndexSet.empty
      cell_to_face_ := [[0, 1], [1, 2], [2, 3]] }

/-- The distributed instance that the sample partitioning produces for rank 0
of two processes: the three cells 3, 5, 9 numbered by global index. -/
def sampleDistributed : CpGridData :=
  { ccobj_ := ⟨2, 0⟩
    cell_indexset_ :=
      { state := IndexSetState.GROUND
        records := [(3, ⟨0, ⟨'c'⟩, true⟩), (5, ⟨1, ⟨'o'⟩, true⟩), (9, ⟨2, ⟨'o'⟩, true⟩)] }
    cell_to_face_ := [[], [], []] }

/-- The fields of an import entry that the partitioning provides: global index,
source rank and attribute code (everything but the local index). -/
def importKey (entry : ImportEntry) : Int × Int × Char :=
  (entry.get0, entry.get1, entry.get2)

/-- A rank has an entry in the interface map. -/
def hasRank (interface : InterfaceMap) (rank : Int) : Bool :=
  (mapFind interface rank).isSome

/-! # Theorems -/

/-! ## The map operations -/

theorem mapFind_mapPut {V : Type} (m : List (Int × V)) (key : Int) (val : V) (k : Int) :
    mapFind (mapPut m key val) k = if k = key then some val else mapFind m k := by
  induction m with
  | nil => simp [mapPut, mapFind]
  | cons hd tl ih =>
    obtain ⟨k0, v0⟩ := hd
    by_cases h1 : key < k0
    · simp [mapPut, h1, mapFind]
    · by_cases h3 : key = k0
      · subst h3
        by_cases h2 : k = key <;> simp [mapPut, mapFind, h2]
      · by_cases h2 : k = key
        · subst h2
          simp [mapPut, h1, h3, mapFind, ih]
        · simp [mapPut, h1, h3, mapFind, ih, h2]

theorem mapFind_mapUpdate {V : Type} (dflt : V) (m : List (Int × V)) (key : Int)
    (f : V → V) (k : Int) :
    mapFind (mapUpdate dflt m key f) k =
      if k = key then some (f ((mapFind m key).getD dflt)) else mapFind m k := by
  simp [mapUpdate, mapFind_mapPut]

/-- Updating the slot of one rank by a function that keeps the send list of an
empty or existing entry leaves every send list as it is. -/
theorem sendList_mapUpdate_keep (m : InterfaceMap) (key : Int)
    (f : InterfacePair → InterfacePair) (hf : ∀ e, (f e).1.indices = e.1.indices)
    (rank : Int) :
    sendList (mapUpdate InterfacePair.empty m key f) rank = sendList m rank := by
  unfold sendList
  rw [mapFind_mapUpdate]
  by_cases h : rank = key
  · subst h
    cases hm : mapFind m rank <;>
      simp [hf, InterfacePair.empty, InterfaceInformation.empty]
  · simp [h]

theorem recvList_mapUpdate_keep (m : InterfaceMap) (key : Int)
    (f : InterfacePair → InterfacePair) (hf : ∀ e, (f e).2.indices = e.2.indices)
    (rank : Int) :
    recvList (mapUpdate InterfacePair.empty m key f) rank = recvList m rank := by
  unfold recvList
  rw [mapFind_mapUpdate]
  by_cases h : rank = key
  · subst h
    cases hm : mapFind m rank <;>
      simp [hf, InterfacePair.empty, InterfaceInformation.empty]
  · simp [h]

theorem sendList_reserveInterface {T : Type} (get1 : T → Int) (list : List T)
    (interface : InterfaceMap) (first : Bool) (rank : Int) :
    sendList (reserveInterface get1 list interface first) rank = sendList interface rank := by
  unfold reserveInterface
  generalize countProcs get1 list = procs
  induction procs generalizing interface with
  | nil => rfl
  | cons p ps ih =>
    rw [List.foldl_cons, ih]
    apply sendList_mapUpdate_keep
    intro e
    cases first <;> simp [InterfaceInformation.reserve]

theorem recvList_reserveInterface {T : Type} (get1 : T → Int) (list : List T)
    (interface : InterfaceMap) (first : Bool) (rank : Int) :
    recvList (reserveInterface get1 list interface first) rank = recvList interface rank := by
  unfold reserveInterface
  generalize countProcs get1 list = procs
  induction procs generalizing interface with
  | nil => rfl
  | cons p ps ih =>
    rw [List.foldl_cons, ih]
    apply recvList_mapUpdate_keep
    intro e
    cases first <;> simp [InterfaceInformation.reserve]

/-- Appending to the send list of one rank. -/
theorem sendList_mapUpdate_add (m : InterfaceMap) (key : Int) (v : Int) (rank : Int) :
    sendList (mapUpdate InterfacePair.empty m key (fun e => (e.1.add v, e.2))) rank =
      if rank = key then sendList m rank ++ [v] else sendList m rank := by
  unfold sendList
  rw [mapFind_mapUpdate]
  by_cases h : rank = key
  · subst h
    cases hm : mapFind m rank <;>
      simp [InterfacePair.empty, InterfaceInformation.empty, InterfaceInformation.add]
  · simp [h]

theorem recvList_mapUpdate_add (m : InterfaceMap) (key : Int) (v : Int) (rank : Int) :
    recvList (mapUpdate InterfacePair.empty m key (fun e => (e.1, e.2.add v))) rank =
      if rank = key then recvList m rank ++ [v] else recvList m rank := by
  unfold recvList
  rw [mapFind_mapUpdate]
  by_cases h : rank = key
  · subst h
    cases hm : mapFind m rank <;>
      simp [InterfacePair.empty, InterfaceInformation.empty, InterfaceInformation.add]
  · simp [h]

/-! ## Positions among distinct values of a sorted list -/

theorem indexOf_dedup_head (y : Int) (ys : List Int)
    (h : List.Sorted (fun a b : Int => a ≤ b) (y :: ys)) :
    List.indexOf y (List.dedup (y :: ys)) = 0 := by
  induction ys with
  | nil => simp
  | cons z zs ih =>
    by_cases hm : y ∈ z :: zs
    · rw [List.dedup_cons_of_mem hm]
      have hyz : y ≤ z := List.rel_of_sorted_cons h z (List.mem_cons_self z zs)
      have hzy : z ≤ y := by
        rcases List.mem_cons.mp hm with h1 | h1
        · exact le_of_eq h1.symm
        · exact List.rel_of_sorted_cons h.of_cons y h1
      have hEq : z = y := le_antisymm hzy hyz
      subst hEq
      exact ih h.of_cons
    · rw [List.dedup_cons_of_not_mem hm]
      exact List.indexOf_cons_self _ _

theorem indexOf_dedup_shift (old y : Int) (ys : List Int)
    (h : List.Sorted (fun a b : Int => a ≤ b) (old :: y :: ys)) (g : Int)
    (hg : g ∈ y :: ys) :
    (if y ≠ old then 1 else 0) + List.indexOf g (List.dedup (y :: ys)) =
      List.indexOf g (List.dedup (old :: y :: ys)) := by
  have hle : ∀ b ∈ y :: ys, old ≤ b := List.rel_of_sorted_cons h
  have hyle : ∀ b ∈ y :: ys, y ≤ b := by
    intro b hb
    rcases List.mem_cons.mp hb with h1 | h1
    · exact le_of_eq h1.symm
    · exact List.rel_of_sorted_cons h.of_cons b h1
  by_cases hy : y = old
  · subst hy
    rw [List.dedup_cons_of_mem (List.mem_cons_self y ys)]
    simp
  · have hlt : old < y := lt_of_le_of_ne (hle y (List.mem_cons_self y ys)) (Ne.symm hy)
    have hnm : old ∉ y :: ys := fun hmem => absurd (hyle old hmem) (not_le.mpr hlt)
    have hne : old ≠ g := fun hEq => hnm (hEq ▸ hg)
    rw [List.dedup_cons_of_not_mem hnm, List.indexOf_cons_ne _ hne, if_pos hy]
    omega

/-! ## The loop of `setupSendInterface` -/

theorem sendStep_oldIndex (st : SendState) (e : ExportEntry) :
    (sendStep st e).oldIndex = e.get0 := by
  unfold sendStep
  by_cases h : e.get0 = st.oldIndex <;> simp [h]

theorem sendStep_cellIndex (st : SendState) (e : ExportEntry) :
    (sendStep st e).cellIndex =
      if e.get0 ≠ st.oldIndex then st.cellIndex + 1 else st.cellIndex := rfl

theorem sendList_sendStep (st : SendState) (e : ExportEntry) (rank : Int) :
    sendList (sendStep st e).interface rank =
      if rank = e.get1 then sendList st.interface rank ++ [(sendStep st e).cellIndex]
      else sendList st.interface rank := by
  simp only [sendStep]
  exact sendList_mapUpdate_add _ _ _ _

theorem recvList_sendStep (st : SendState) (e : ExportEntry) (rank : Int) :
    recvList (sendStep st e).interface rank = recvList st.interface rank := by
  simp only [sendStep]
  apply recvList_mapUpdate_keep
  intro e0
  rfl

/-- The loop appends one value per entry to the send list of the entry's rank,
whatever the order of the list. -/
theorem sendLoop_length (es : List ExportEntry) (st : SendState) (rank : Int) :
    (sendList (es.foldl sendStep st).interface rank).length =
      (sendList st.interface rank).length +
        es.countP (fun e => decide (e.get1 = rank)) := by
  induction es generalizing st with
  | nil => simp
  | cons x xs ih =>
    rw [List.foldl_cons, ih, sendList_sendStep, List.countP_cons]
    by_cases h : rank = x.get1
    · subst h
      simp
      omega
    · have h2 : ¬ x.get1 = rank := fun h3 => h h3.symm
      simp [h, h2]

/-- On a sorted list continued from a previous global index `oldIndex` the
loop appends, for every entry, the counter plus the position of the entry's
global index among the distinct values of `oldIndex` and the list. -/
theorem sendLoop_sorted (es : List ExportEntry) (st : SendState) (rank : Int)
    (h : List.Sorted (fun a b : Int => a ≤ b) (st.oldIndex :: es.map ExportEntry.get0)) :
    sendList (es.foldl sendStep st).interface rank =
      sendList st.interface rank ++
        (es.filter (fun e => decide (e.get1 = rank))).map (fun e =>
          st.cellIndex +
            ((List.indexOf e.get0 (List.dedup (st.oldIndex :: es.map ExportEntry.get0)) : Nat) :
              Int)) := by
  induction es generalizing st with
  | nil => simp
  | cons x xs ih =>
    have hs : List.Sorted (fun a b : Int => a ≤ b)
        ((sendStep st x).oldIndex :: xs.map ExportEntry.get0) := by
      rw [sendStep_oldIndex]
      exact h.of_cons
    have hshift : ∀ g ∈ x.get0 :: xs.map ExportEntry.get0,
        (sendStep st x).cellIndex +
            ((List.indexOf g (List.dedup (x.get0 :: xs.map ExportEntry.get0)) : Nat) : Int) =
          st.cellIndex +
            ((List.indexOf g (List.dedup (st.oldIndex :: x.get0 :: xs.map ExportEntry.get0)) :
              Nat) : Int) := by
      intro g hg
      have hk := indexOf_dedup_shift st.oldIndex x.get0 (xs.map ExportEntry.get0) h g hg
      rw [sendStep_cellIndex, ← hk]
      by_cases hx : x.get0 = st.oldIndex
      · simp [hx]
      · simp [hx]
        omega
    have hhead := indexOf_dedup_head x.get0 (xs.map ExportEntry.get0) h.of_cons
    have hfirst : (sendStep st x).cellIndex =
        st.cellIndex +
          ((List.indexOf x.get0 (List.dedup (st.oldIndex :: x.get0 :: xs.map ExportEntry.get0)) :
            Nat) : Int) := by
      rw [← hshift x.get0 (List.mem_cons_self _ _), hhead]
      simp
    have htail : (xs.filter (fun e => decide (e.get1 = rank))).map (fun e =>
          (sendStep st x).cellIndex +
            ((List.indexOf e.get0 (List.dedup ((sendStep st x).oldIndex ::
              xs.map ExportEntry.get0)) : Nat) : Int)) =
        (xs.filter (fun e => decide (e.get1 = rank))).map (fun e =>
          st.cellIndex +
            ((List.indexOf e.get0 (List.dedup (st.oldIndex :: x.get0 ::
              xs.map ExportEntry.get0)) : Nat) : Int)) := by
      apply List.map_congr_left
      intro e he
      rw [sendStep_oldIndex]
      apply hshift
      exact List.mem_cons_of_mem _ (List.mem_map_of_mem _ (List.mem_of_mem_filter he))
    rw [List.foldl_cons, ih (sendStep st x) hs, htail, sendList_sendStep]
    simp only [List.map_cons]
    by_cases hr : rank = x.get1
    · subst hr
      rw [if_pos rfl, List.filter_cons_of_pos (by simp), List.map_cons, ← hfirst]
      simp
    · have h2 : ¬ x.get1 = rank := fun h3 => hr h3.symm
      rw [if_neg hr, List.filter_cons_of_neg (by simp [h2])]

/-- The send lists of `setupSendInterface` on a sorted list whose first global
index differs from `INT_MAX`. -/
theorem setupSendInterface_sorted (list : List ExportEntry) (interface : InterfaceMap)
    (rank : Int) (hs : exportSorted list)
    (hfirst : (list.map ExportEntry.get0).head? ≠ some INT_MAX) :
    sendList (setupSendInterface list interface) rank =
      sendList interface rank ++ expectedSendList list rank := by
  unfold setupSendInterface setupSendInterfaceState
  cases list with
  | nil => simp [expectedSendList, sendList_reserveInterface]
  | cons x xs =>
    have hx : x.get0 ≠ INT_MAX := by simpa using hfirst
    unfold exportSorted at hs
    rw [List.map_cons] at hs
    rw [List.foldl_cons]
    generalize hst0 : SendState.mk (-1) INT_MAX
      (reserveInterface ExportEntry.get1 (x :: xs) interface true) true = st0
    have hc0 : st0.cellIndex = -1 := by rw [← hst0]
    have ho0 : st0.oldIndex = INT_MAX := by rw [← hst0]
    have hi0 : st0.interface = reserveInterface ExportEntry.get1 (x :: xs) interface true := by
      rw [← hst0]
    have hc1 : (sendStep st0 x).cellIndex = 0 := by
      rw [sendStep_cellIndex, ho0, hc0, if_pos hx]
      rfl
    have hs1 : List.Sorted (fun a b : Int => a ≤ b)
        ((sendStep st0 x).oldIndex :: xs.map ExportEntry.get0) := by
      rw [sendStep_oldIndex]
      exact hs
    rw [sendLoop_sorted xs (sendStep st0 x) rank hs1, sendList_sendStep, hc1,
      sendStep_oldIndex, hi0, sendList_reserveInterface]
    have hhead := indexOf_dedup_head x.get0 (xs.map ExportEntry.get0) hs
    unfold expectedSendList exportPosition distinctGlobals
    simp only [List.map_cons, zero_add]
    by_cases hr : rank = x.get1
    · subst hr
      rw [if_pos rfl, List.filter_cons_of_pos (by simp), List.map_cons, hhead]
      simp
    · have h2 : ¬ x.get1 = rank := fun h3 => hr h3.symm
      rw [if_neg hr, List.filter_cons_of_neg (by simp [h2])]

/-! ## The loop of `setupRecvInterface` -/

theorem mapFind_mem {V : Type} (m : List (Int × V)) (k : Int) (v : V)
    (h : mapFind m k = some v) : (k, v) ∈ m := by
  induction m with
  | nil => simp [mapFind] at h
  | cons hd tl ih =>
    obtain ⟨k0, v0⟩ := hd
    by_cases hk : k = k0
    · subst hk
      simp [mapFind] at h
      simp [h]
    · simp [mapFind, hk] at h
      exact List.mem_cons_of_mem _ (ih h)

theorem recvList_of_recvListsEmpty (interface : InterfaceMap)
    (h : recvListsEmpty interface) (rank : Int) : recvList interface rank = [] := by
  unfold recvList
  cases hm : mapFind interface rank with
  | none => rfl
  | some e => exact h (rank, e) (mapFind_mem _ _ _ hm)

theorem recvLoop_lists (es : List ImportEntry) (interface : InterfaceMap) (rank : Int) :
    recvList (es.foldl recvStep interface) rank =
      recvList interface rank ++ expectedRecvList es rank := by
  induction es generalizing interface with
  | nil => simp [expectedRecvList]
  | cons x xs ih =>
    rw [List.foldl_cons, ih]
    unfold recvStep expectedRecvList
    rw [recvList_mapUpdate_add]
    by_cases hr : rank = x.get1
    · subst hr
      simp
    · have h2 : ¬ x.get1 = rank := fun h3 => hr h3.symm
      simp [hr, h2]

theorem sendList_recvStep (interface : InterfaceMap) (e : ImportEntry) (rank : Int) :
    sendList (recvStep interface e) rank = sendList interface rank := by
  unfold recvStep
  apply sendList_mapUpdate_keep
  intro e0
  rfl

/-! ## Claims on the send and the receive interface -/

/-- C1 (amended): for every export list sorted ascending by global index whose
first global index is not `INT_MAX`, and a fresh interface map, the send list
that `setupSendInterface` builds for a rank is, over the export entries destined
for that rank in list order, the 0-based position of the entry's global index
among the distinct global indices of the whole export list. -/
theorem setupSendInterface_positions (list : List ExportEntry) (rank : Int)
    (hs : exportSorted list)
    (hfirst : (list.map ExportEntry.get0).head? ≠ some INT_MAX) :
    sendList (setupSendInterface list []) rank = expectedSendList list rank := by
  rw [setupSendInterface_sorted list [] rank hs hfirst]
  rfl

/-- C1, the scenario of the specification: the export list
`[(5,1,'o'), (5,2,'o'), (9,2,'o')]` gives the send list `[0]` for rank 1 and
`[0, 1]` for rank 2. -/
theorem setupSendInterface_positions_witness :
    exportSorted [⟨5, 1, 'o'⟩, ⟨5, 2, 'o'⟩, ⟨9, 2, 'o'⟩] ∧
    sendList (setupSendInterface [⟨5, 1, 'o'⟩, ⟨5, 2, 'o'⟩, ⟨9, 2, 'o'⟩] []) 2 =
      expectedSendList [⟨5, 1, 'o'⟩, ⟨5, 2, 'o'⟩, ⟨9, 2, 'o'⟩] 2 ∧
    expectedSendList [⟨5, 1, 'o'⟩, ⟨5, 2, 'o'⟩, ⟨9, 2, 'o'⟩] 2 = [0, 1] ∧
    sendList (setupSendInterface [⟨5, 1, 'o'⟩, ⟨5, 2, 'o'⟩, ⟨9, 2, 'o'⟩] []) 1 = [0] :=
  ⟨by decide,
   setupSendInterface_positions [⟨5, 1, 'o'⟩, ⟨5, 2, 'o'⟩, ⟨9, 2, 'o'⟩] 2 (by decide)
     (by decide),
   by decide, by decide⟩

/-- C1 as stated fails: the one entry export list `[(INT_MAX, 1, 'o')]` is
sorted, its only global index has position 0, and the send list built for
rank 1 is `[-1]`: the counter is still at its start value -1 when it is handed
to `add`. -/
theorem setupSendInterface_positions_counterexample :
    exportSorted [⟨2147483647, 1, 'o'⟩] ∧
    expectedSendList [⟨2147483647, 1, 'o'⟩] 1 = [0] ∧
    sendList (setupSendInterface [⟨2147483647, 1, 'o'⟩] []) 1 = [-1] :=
  ⟨by decide, by decide, by decide⟩

/-- C2: for every export list (sorted or not) and a fresh interface map, the
length of the send list of a rank is the number of export entries whose
destination is that rank; a rank without export entry has an empty send
list. -/
theorem setupSendInterface_length (list : List ExportEntry) (rank : Int) :
    (sendList (setupSendInterface list []) rank).length =
        list.countP (fun e => decide (e.get1 = rank)) ∧
      (list.countP (fun e => decide (e.get1 = rank)) = 0 →
        sendList (setupSendInterface list []) rank = []) := by
  have hlen : (sendList (setupSendInterface list []) rank).length =
      list.countP (fun e => decide (e.get1 = rank)) := by
    unfold setupSendInterface setupSendInterfaceState
    rw [sendLoop_length, sendList_reserveInterface]
    simp [sendList, mapFind]
  refine ⟨hlen, fun h0 => ?_⟩
  rw [h0] at hlen
  exact List.length_eq_zero.mp hlen

/-- C3: for every import list, in any order, and an interface map whose receive
lists are empty, the receive list that `setupRecvInterface` builds for a rank
is the sequence of the local index fields of the import entries from that rank,
in list order; its length is the number of those entries. -/
theorem setupRecvInterface_lists (list : List ImportEntry) (interface : InterfaceMap)
    (rank : Int) (hempty : recvListsEmpty interface) :
    recvList (setupRecvInterface list interface) rank = expectedRecvList list rank ∧
      (recvList (setupRecvInterface list interface) rank).length =
        list.countP (fun e => decide (e.get1 = rank)) := by
  have h : recvList (setupRecvInterface list interface) rank = expectedRecvList list rank := by
    unfold setupRecvInterface
    rw [recvLoop_lists, recvList_reserveInterface,
      recvList_of_recvListsEmpty interface hempty, List.nil_append]
  refine ⟨h, ?_⟩
  rw [h]
  unfold expectedRecvList
  rw [List.length_map, List.countP_eq_length_filter]

/-- C3 at an unsorted import list and an interface map that already holds a
send list: the receive list of rank 0 is `[1, 2]`, in list order. -/
theorem setupRecvInterface_lists_witness :
    recvListsEmpty (setupSendInterface [⟨5, 1, 'o'⟩] []) ∧
    (recvList (setupRecvInterface [⟨5, 0, 'o', 1⟩, ⟨3, 2, 'c', 0⟩, ⟨9, 0, 'o', 2⟩]
        (setupSendInterface [⟨5, 1, 'o'⟩] [])) 0 =
      expectedRecvList [⟨5, 0, 'o', 1⟩, ⟨3, 2, 'c', 0⟩, ⟨9, 0, 'o', 2⟩] 0 ∧
    (recvList (setupRecvInterface [⟨5, 0, 'o', 1⟩, ⟨3, 2, 'c', 0⟩, ⟨9, 0, 'o', 2⟩]
        (setupSendInterface [⟨5, 1, 'o'⟩] [])) 0).length =
      List.countP (fun e => decide (e.get1 = 0))
        [(⟨5, 0, 'o', 1⟩ : ImportEntry), ⟨3, 2, 'c', 0⟩, ⟨9, 0, 'o', 2⟩]) ∧
    expectedRecvList [⟨5, 0, 'o', 1⟩, ⟨3, 2, 'c', 0⟩, ⟨9, 0, 'o', 2⟩] 0 = [1, 2] :=
  ⟨by decide,
   setupRecvInterface_lists [⟨5, 0, 'o', 1⟩, ⟨3, 2, 'c', 0⟩, ⟨9, 0, 'o', 2⟩]
     (setupSendInterface [⟨5, 1, 'o'⟩] []) 0 (by decide),
   by decide⟩

/-! ## The merge -/

theorem mergeRanges_nil_right {α : Type} (comp : α → α → Bool) (xs : List α) :
    mergeRanges comp xs [] = xs := by
  induction xs with
  | nil => rfl
  | cons x xs ih => simp [mergeRanges, mergeFront, ih]

theorem mergeRanges_cons_cons {α : Type} (comp : α → α → Bool) (x : α) (xs : List α)
    (y : α) (ys : List α) :
    mergeRanges comp (x :: xs) (y :: ys) =
      if comp y x then y :: mergeRanges comp (x :: xs) ys
      else x :: mergeRanges comp xs (y :: ys) := rfl

theorem mergeRanges_perm {α : Type} (comp : α → α → Bool) (xs ys : List α) :
    List.Perm (mergeRanges comp xs ys) (xs ++ ys) := by
  induction xs generalizing ys with
  | nil => exact List.Perm.refl _
  | cons x xs ihx =>
    induction ys with
    | nil => rw [mergeRanges_nil_right, List.append_nil]
    | cons y ys ihy =>
      rw [mergeRanges_cons_cons]
      by_cases h : comp y x = true
      · rw [if_pos h]
        exact (List.Perm.cons y ihy).trans (List.perm_middle.symm)
      · rw [if_neg h]
        exact List.Perm.cons x (ihx (y :: ys))

theorem inplace_merge_perm {α : Type} (v : List α) (middle : Nat) (comp : α → α → Bool) :
    List.Perm (inplace_merge v middle comp) v := by
  unfold inplace_merge
  have h := mergeRanges_perm comp (v.take middle) (v.drop middle)
  rwa [List.take_append_drop] at h

theorem mergeRanges_sorted (xs ys : List ImportEntry) (hx : importSorted xs)
    (hy : importSorted ys) : importSorted (mergeRanges compareImport xs ys) := by
  unfold importSorted at *
  induction xs generalizing ys with
  | nil => exact hy
  | cons x xs ihx =>
    induction ys with
    | nil => rw [mergeRanges_nil_right]; exact hx
    | cons y ys ihy =>
      rw [mergeRanges_cons_cons]
      by_cases h : compareImport y x = true
      · rw [if_pos h]
        have hlt : y.get0 < x.get0 := by simpa [compareImport] using h
        apply List.Pairwise.cons
        · intro b hb
          rcases List.mem_append.mp ((mergeRanges_perm compareImport (x :: xs) ys).mem_iff.mp hb)
            with h1 | h1
          · rcases List.mem_cons.mp h1 with h2 | h2
            · rw [h2]; exact le_of_lt hlt
            · exact le_trans (le_of_lt hlt) (List.rel_of_pairwise_cons hx h2)
          · exact List.rel_of_pairwise_cons hy h1
        · exact ihy (List.Pairwise.of_cons hy)
      · rw [if_neg h]
        have hle : x.get0 ≤ y.get0 := by simpa [compareImport] using h
        apply List.Pairwise.cons
        · intro b hb
          rcases List.mem_append.mp ((mergeRanges_perm compareImport xs (y :: ys)).mem_iff.mp hb)
            with h1 | h1
          · exact List.rel_of_pairwise_cons hx h1
          · rcases List.mem_cons.mp h1 with h2 | h2
            · rw [h2]; exact hle
            · exact le_trans hle (List.rel_of_pairwise_cons hy h2)
        · exact ihx (y :: ys) (List.Pairwise.of_cons hx) hy

/-! ## The numbering loop -/

theorem numberEntries_length (c : Int) (l : List ImportEntry) :
    (numberEntries c l).length = l.length := by
  induction l generalizing c with
  | nil => rfl
  | cons e es ih => simp [numberEntries, ih]

theorem numberEntries_get0 (c : Int) (l : List ImportEntry) :
    (numberEntries c l).map ImportEntry.get0 = l.map ImportEntry.get0 := by
  induction l generalizing c with
  | nil => rfl
  | cons e es ih => simp [numberEntries, ih]

theorem numberEntries_get3 (c : Int) (l : List ImportEntry) :
    (numberEntries c l).map ImportEntry.get3 =
      (List.range l.length).map (fun i : Nat => c + (i : Int)) := by
  induction l generalizing c with
  | nil => rfl
  | cons e es ih =>
    rw [List.length_cons, List.range_succ_eq_map]
    simp only [numberEntries, List.map_cons, List.map_map, ih]
    congr 1
    · simp
    · apply List.map_congr_left
      intro i _
      simp only [Function.comp]
      push_cast
      omega

theorem numberEntries_zero_get3 (l : List ImportEntry) :
    (numberEntries 0 l).map ImportEntry.get3 = localIndexRange l.length := by
  rw [numberEntries_get3]
  unfold localIndexRange
  apply List.map_congr_left
  intro i _
  simp

theorem numberEntries_sorted (c : Int) (l : List ImportEntry) (h : importSorted l) :
    importSorted (numberEntries c l) := by
  unfold importSorted at *
  have h1 : List.Pairwise (fun a b : Int => a ≤ b) (l.map ImportEntry.get0) :=
    List.pairwise_map.mpr h
  rw [← numberEntries_get0 c l] at h1
  exact List.pairwise_map.mp h1

theorem mem_localIndexRange (n : Nat) (x : Int) :
    x ∈ localIndexRange n ↔ 0 ≤ x ∧ x < n := by
  unfold localIndexRange
  simp only [List.mem_map, List.mem_range]
  constructor
  · rintro ⟨i, hi, rfl⟩
    omega
  · rintro ⟨h0, h1⟩
    refine ⟨x.toNat, ?_, ?_⟩ <;> omega

theorem nodup_localIndexRange (n : Nat) : (localIndexRange n).Nodup := by
  unfold localIndexRange
  exact List.Nodup.map (fun a b h => by simpa using h) (List.nodup_range n)

theorem getElem_localIndexRange (n i : Nat) (h : i < (localIndexRange n).length) :
    (localIndexRange n)[i] = (i : Int) := by
  unfold localIndexRange
  simp

/-! ## Claims on the local index assignment -/

theorem inplace_merge_sorted (v : List ImportEntry) (middle : Nat)
    (h1 : importSorted (v.take middle)) (h2 : importSorted (v.drop middle)) :
    importSorted (inplace_merge v middle compareImport) :=
  mergeRanges_sorted _ _ h1 h2

theorem inplace_merge_length {α : Type} (v : List α) (middle : Nat) (comp : α → α → Bool) :
    (inplace_merge v middle comp).length = v.length :=
  (inplace_merge_perm v middle comp).length_eq

theorem assignLocalIndices_get3_perm (ownersFirst : Bool) (n : Nat)
    (importList : List ImportEntry) :
    List.Perm ((assignLocalIndices ownersFirst n importList).map ImportEntry.get3)
      (localIndexRange importList.length) := by
  cases ownersFirst with
  | false =>
    simp only [assignLocalIndices, Bool.not_false, if_true, Bool.false_eq_true, if_false]
    rw [numberEntries_zero_get3, inplace_merge_length]
  | true =>
    simp only [assignLocalIndices, Bool.not_true, Bool.false_eq_true, if_false, if_true]
    rw [← numberEntries_zero_get3]
    exact (inplace_merge_perm _ _ _).map _

/-- C4: with owners-first = false, for every import list whose owner sub-range
(the first `noImportedOwner` entries) and overlap sub-range (the rest) are each
sorted ascending by global index, the list after merge and numbering is sorted
ascending by global index, the entry at position `i` carries local index `i`,
and so a smaller global index has a smaller local index. -/
theorem assignLocalIndices_merged_numbering (importList : List ImportEntry)
    (noImportedOwner : Nat)
    (hown : importSorted (importList.take noImportedOwner))
    (hovl : importSorted (importList.drop noImportedOwner)) :
    importSorted (assignLocalIndices false noImportedOwner importList) ∧
      (assignLocalIndices false noImportedOwner importList).map ImportEntry.get3 =
        localIndexRange importList.length ∧
      (∀ a ∈ assignLocalIndices false noImportedOwner importList,
        ∀ b ∈ assignLocalIndices false noImportedOwner importList,
          a.get0 < b.get0 → a.get3 < b.get3) := by
  have hdef : assignLocalIndices false noImportedOwner importList =
      numberEntries 0 (inplace_merge importList noImportedOwner compareImport) := by
    simp [assignLocalIndices]
  have hsorted : importSorted (assignLocalIndices false noImportedOwner importList) := by
    rw [hdef]
    exact numberEntries_sorted _ _ (inplace_merge_sorted _ _ hown hovl)
  have hnum : (assignLocalIndices false noImportedOwner importList).map ImportEntry.get3 =
      localIndexRange importList.length := by
    rw [hdef, numberEntries_zero_get3, inplace_merge_length]
  refine ⟨hsorted, hnum, ?_⟩
  have hlt : List.Pairwise (fun a b : ImportEntry => a.get3 < b.get3)
      (assignLocalIndices false noImportedOwner importList) := by
    apply List.pairwise_map.mp
    rw [hnum]
    unfold localIndexRange
    apply List.pairwise_map.mpr
    exact (List.pairwise_lt_range _).imp (fun h => by exact_mod_cast h)
  have hboth : List.Pairwise
      (fun a b : ImportEntry => (a.get0 < b.get0 → a.get3 < b.get3) ∧
        (b.get0 < a.get0 → b.get3 < a.get3))
      (assignLocalIndices false noImportedOwner importList) := by
    unfold importSorted at hsorted
    refine (hsorted.and hlt).imp ?_
    intro a b hab
    exact ⟨fun _ => hab.2, fun hba => absurd hab.1 (not_le.mpr hba)⟩
  intro a ha b hb
  have hsymm : Symmetric (fun a b : ImportEntry => (a.get0 < b.get0 → a.get3 < b.get3) ∧
      (b.get0 < a.get0 → b.get3 < a.get3)) := fun _ _ hxy => ⟨hxy.2, hxy.1⟩
  have hall := hboth.forall_of_forall hsymm
    (fun x _ => ⟨fun hx => absurd hx (lt_irrefl _), fun hx => absurd hx (lt_irrefl _)⟩)
  exact (hall ha hb).1

/-- C4, the scenario of the specification: owner count 2 and the import list
`[(5,0,'o'), (9,0,'o'), (3,0,'c')]` give the local indices 3 -> 0, 5 -> 1,
9 -> 2. -/
theorem assignLocalIndices_merged_numbering_witness :
    (importSorted (List.take 2 [(⟨5, 0, 'o', 0⟩ : ImportEntry), ⟨9, 0, 'o', 0⟩, ⟨3, 0, 'c', 0⟩]) ∧
      importSorted (List.drop 2 [(⟨5, 0, 'o', 0⟩ : ImportEntry), ⟨9, 0, 'o', 0⟩, ⟨3, 0, 'c', 0⟩])) ∧
    (importSorted (assignLocalIndices false 2 [⟨5, 0, 'o', 0⟩, ⟨9, 0, 'o', 0⟩, ⟨3, 0, 'c', 0⟩]) ∧
      (assignLocalIndices false 2 [⟨5, 0, 'o', 0⟩, ⟨9, 0, 'o', 0⟩, ⟨3, 0, 'c', 0⟩]).map
          ImportEntry.get3 =
        localIndexRange [(⟨5, 0, 'o', 0⟩ : ImportEntry), ⟨9, 0, 'o', 0⟩, ⟨3, 0, 'c', 0⟩].length ∧
      (∀ a ∈ assignLocalIndices false 2 [⟨5, 0, 'o', 0⟩, ⟨9, 0, 'o', 0⟩, ⟨3, 0, 'c', 0⟩],
        ∀ b ∈ assignLocalIndices false 2 [⟨5, 0, 'o', 0⟩, ⟨9, 0, 'o', 0⟩, ⟨3, 0, 'c', 0⟩],
          a.get0 < b.get0 → a.get3 < b.get3)) ∧
    assignLocalIndices false 2 [⟨5, 0, 'o', 0⟩, ⟨9, 0, 'o', 0⟩, ⟨3, 0, 'c', 0⟩] =
      [⟨3, 0, 'c', 0⟩, ⟨5, 0, 'o', 1⟩, ⟨9, 0, 'o', 2⟩] :=
  ⟨⟨by decide, by decide⟩,
   assignLocalIndices_merged_numbering [⟨5, 0, 'o', 0⟩, ⟨9, 0, 'o', 0⟩, ⟨3, 0, 'c', 0⟩] 2
     (by decide) (by decide),
   by decide⟩

/-- C5: for every import list of length `N`, every owner count (in particular
every one between 0 and `N`) and either value of the owners-first flag, the
local index fields after the assignment are a rearrangement of `0, ..., N - 1`:
they are pairwise distinct and their set is exactly `{0, ..., N - 1}`. -/
theorem assignLocalIndices_dense (ownersFirst : Bool) (noImportedOwner : Nat)
    (importList : List ImportEntry) :
    List.Perm ((assignLocalIndices ownersFirst noImportedOwner importList).map ImportEntry.get3)
        (localIndexRange importList.length) ∧
      ((assignLocalIndices ownersFirst noImportedOwner importList).map ImportEntry.get3).Nodup ∧
      (∀ x : Int,
        x ∈ (assignLocalIndices ownersFirst noImportedOwner importList).map ImportEntry.get3 ↔
          0 ≤ x ∧ x < importList.length) := by
  have hp := assignLocalIndices_get3_perm ownersFirst noImportedOwner importList
  refine ⟨hp, hp.nodup_iff.mpr (nodup_localIndexRange _), fun x => ?_⟩
  rw [hp.mem_iff, mem_localIndexRange]

/-! ## Claim on the index set -/

theorem foldl_add_records (l : List ImportEntry) (s : ParallelIndexSet) :
    (l.foldl (fun acc entry =>
        acc.add entry.get0 ⟨entry.get3, AttributeSet.mk entry.get2, true⟩) s).records =
      s.records ++ l.map expectedRecord := by
  induction l generalizing s with
  | nil => simp
  | cons e es ih =>
    rw [List.foldl_cons, ih]
    simp [ParallelIndexSet.add, expectedRecord]

/-- C6: the records added to the freshly created distributed cell index set are
one per import entry, in list order, each being (global index, assigned local
index, attribute of the attribute code, public); so the global indices of the
index set are those of the import list and every record is public.  The index
set is closed for insertion afterwards. -/
theorem populateIndexSet_records (cc : CollectiveCommunication)
    (importList : List ImportEntry) :
    (populateIndexSet importList (CpGridData.create cc).cell_indexset_).records =
        importList.map expectedRecord ∧
      ((populateIndexSet importList (CpGridData.create cc).cell_indexset_).records.map
        Prod.fst = importList.map ImportEntry.get0) ∧
      (∀ r ∈ (populateIndexSet importList (CpGridData.create cc).cell_indexset_).records,
        r.2.isPublic = true) ∧
      (populateIndexSet importList (CpGridData.create cc).cell_indexset_).state =
        IndexSetState.GROUND := by
  have h : (populateIndexSet importList (CpGridData.create cc).cell_indexset_).records =
      importList.map expectedRecord := by
    unfold populateIndexSet
    simp only [ParallelIndexSet.endResize]
    rw [foldl_add_records]
    simp [ParallelIndexSet.beginResize, CpGridData.create, ParallelIndexSet.empty]
  refine ⟨h, ?_, ?_, rfl⟩
  · rw [h, List.map_map]
    rfl
  · intro r hr
    rw [h] at hr
    obtain ⟨e, _, rfl⟩ := List.mem_map.mp hr
    rfl

/-! ## Claim relating send side and local numbering -/

theorem find_numberEntries (c : Int) (l : List ImportEntry) (g : Int)
    (hg : g ∈ l.map ImportEntry.get0) :
    assignedLocalIndex (numberEntries c l) g =
      some (c + ((List.indexOf g (l.map ImportEntry.get0) : Nat) : Int)) := by
  unfold assignedLocalIndex
  induction l generalizing c with
  | nil => simp at hg
  | cons e es ih =>
    by_cases he : e.get0 = g
    · subst he
      simp [numberEntries]
    · have hg2 : g ∈ es.map ImportEntry.get0 := by
        rcases List.mem_cons.mp hg with h1 | h1
        · exact absurd h1.symm he
        · exact h1
      simp only [numberEntries, List.map_cons]
      rw [List.find?_cons_of_neg _ (by simpa using he), ih (c + 1) hg2,
        List.indexOf_cons_ne _ he]
      congr 1
      push_cast
      omega

theorem assignLocalIndices_all_owner (imp : List ImportEntry) :
    assignLocalIndices false imp.length imp = numberEntries 0 imp := by
  simp [assignLocalIndices, inplace_merge, mergeRanges_nil_right]

/-- C7 (amended): for every export list sorted by global index whose first
global index is not `INT_MAX`, every rank and every import list holding exactly
the distinct global indices of the export list, all as owner entries: the send
list of the rank consists, entry by entry over the export entries destined for
the rank, of the local index that the assignment with owners-first = false
gives to the entry's global index. -/
theorem sendList_matches_local_numbering (list : List ExportEntry)
    (imp : List ImportEntry) (rank : Int) (hs : exportSorted list)
    (hfirst : (list.map ExportEntry.get0).head? ≠ some INT_MAX)
    (himp : imp.map ImportEntry.get0 = distinctGlobals list) :
    (sendList (setupSendInterface list []) rank).map some =
      (list.filter (fun e => decide (e.get1 = rank))).map
        (fun e => assignedLocalIndex (assignLocalIndices false imp.length imp) e.get0) := by
  rw [setupSendInterface_sorted list [] rank hs hfirst, assignLocalIndices_all_owner]
  simp only [sendList, mapFind, List.nil_append, expectedSendList, List.map_map]
  apply List.map_congr_left
  intro e he
  have hmem : e.get0 ∈ imp.map ImportEntry.get0 := by
    rw [himp]
    unfold distinctGlobals
    exact List.mem_dedup.mpr (List.mem_map_of_mem _ (List.mem_of_mem_filter he))
  rw [find_numberEntries 0 imp e.get0 hmem, himp]
  simp [exportPosition]

/-- C7 at the export list of the specification's scenario. -/
theorem sendList_matches_local_numbering_witness :
    exportSorted [⟨5, 1, 'o'⟩, ⟨5, 2, 'o'⟩, ⟨9, 2, 'o'⟩] ∧
    (sendList (setupSendInterface [⟨5, 1, 'o'⟩, ⟨5, 2, 'o'⟩, ⟨9, 2, 'o'⟩] []) 2).map some =
      (List.filter (fun e => decide (e.get1 = 2))
        [(⟨5, 1, 'o'⟩ : ExportEntry), ⟨5, 2, 'o'⟩, ⟨9, 2, 'o'⟩]).map
        (fun e => assignedLocalIndex
          (assignLocalIndices false
            [(⟨5, 0, 'o', 0⟩ : ImportEntry), ⟨9, 0, 'o', 0⟩].length
            [⟨5, 0, 'o', 0⟩, ⟨9, 0, 'o', 0⟩]) e.get0) ∧
    assignLocalIndices false 2 [⟨5, 0, 'o', 0⟩, ⟨9, 0, 'o', 0⟩] =
      [⟨5, 0, 'o', 0⟩, ⟨9, 0, 'o', 1⟩] :=
  ⟨by decide,
   sendList_matches_local_numbering [⟨5, 1, 'o'⟩, ⟨5, 2, 'o'⟩, ⟨9, 2, 'o'⟩]
     [⟨5, 0, 'o', 0⟩, ⟨9, 0, 'o', 0⟩] 2 (by decide) (by decide) (by decide),
   by decide⟩

/-- C7 as stated fails: for the sorted export list `[(INT_MAX, 1, 'o')]` the
value appended for the entry is -1, while the import list holding the one
global index `INT_MAX` as owner gives it local index 0. -/
theorem sendList_matches_local_numbering_counterexample :
    exportSorted [⟨2147483647, 1, 'o'⟩] ∧
    List.map ImportEntry.get0 [(⟨2147483647, 0, 'o', 0⟩ : ImportEntry)] =
      distinctGlobals [⟨2147483647, 1, 'o'⟩] ∧
    sendList (setupSendInterface [⟨2147483647, 1, 'o'⟩] []) 1 = [-1] ∧
    assignedLocalIndex (assignLocalIndices false 1 [⟨2147483647, 0, 'o', 0⟩]) 2147483647 =
      some 0 :=
  ⟨by decide, by decide, by decide, by decide⟩

/-! ## Claims on `scatterGrid` -/

/-- C8: `scatterGrid` on a grid that already has a distributed instance returns
(false, empty set) and changes nothing: the grid afterwards, with its
distributed instance, interface map and active view, is the grid before, and
the only thing that happens is output on the error stream (no partitioning, no
construction step). -/
theorem scatterGrid_already_distributed (env : Env) (grid : CpGrid)
    (h : grid.distributed_data_.isSome = true) :
    (scatterGrid env grid).result = ScatterResult.returned false ∅ ∧
      (scatterGrid env grid).grid = grid ∧
      (scatterGrid env grid).grid.distributed_data_ = grid.distributed_data_ ∧
      (scatterGrid env grid).grid.cell_scatter_gather_interfaces_ =
        grid.cell_scatter_gather_interfaces_ ∧
      (scatterGrid env grid).grid.current_view_data_ = grid.current_view_data_ ∧
      (∀ ev ∈ (scatterGrid env grid).events, ev.isCerr = true) := by
  have hout : scatterGrid env grid =
      { grid := grid
        events := [Event.cerr
          "There is already a distributed version of the grid. Maybe scatterGrid was called before?\n"]
        result := ScatterResult.returned false ∅ } := by
    unfold scatterGrid
    rw [if_pos h]
  rw [hout]
  refine ⟨rfl, rfl, rfl, rfl, rfl, ?_⟩
  intro ev hev
  rw [List.mem_singleton.mp hev]
  rfl

/-- C8 at the grid left by a first, successful call: the second call returns
(false, empty set) and leaves that grid as it is. -/
theorem scatterGrid_already_distributed_witness :
    (scatterGrid sampleEnv (sampleGrid 2)).grid.distributed_data_.isSome = true ∧
    ((scatterGrid sampleEnv (scatterGrid sampleEnv (sampleGrid 2)).grid).result =
        ScatterResult.returned false ∅ ∧
      (scatterGrid sampleEnv (scatterGrid sampleEnv (sampleGrid 2)).grid).grid =
        (scatterGrid sampleEnv (sampleGrid 2)).grid ∧
      (scatterGrid sampleEnv (scatterGrid sampleEnv (sampleGrid 2)).grid).grid.distributed_data_ =
        (scatterGrid sampleEnv (sampleGrid 2)).grid.distributed_data_ ∧
      (scatterGrid sampleEnv
          (scatterGrid sampleEnv (sampleGrid 2)).grid).grid.cell_scatter_gather_interfaces_ =
        (scatterGrid sampleEnv (sampleGrid 2)).grid.cell_scatter_gather_interfaces_ ∧
      (scatterGrid sampleEnv (scatterGrid sampleEnv (sampleGrid 2)).grid).grid.current_view_data_ =
        (scatterGrid sampleEnv (sampleGrid 2)).grid.current_view_data_ ∧
      (∀ ev ∈ (scatterGrid sampleEnv (scatterGrid sampleEnv (sampleGrid 2)).grid).events,
        ev.isCerr = true)) :=
  ⟨by decide,
   scatterGrid_already_distributed sampleEnv (scatterGrid sampleEnv (sampleGrid 2)).grid
     (by decide)⟩

/-- C9: `scatterGrid` on a grid without distributed instance, when the
communicator has exactly one process, returns (false, empty set) and changes
nothing: no distributed instance is created, the interface map and the active
view are as before, and the only thing that happens is output on the error
stream.  This holds with and without MPI support. -/
theorem scatterGrid_single_process (env : Env) (grid : CpGrid)
    (hnone : grid.distributed_data_ = none) (hone : grid.data_.ccobj_.size = 1) :
    (scatterGrid env grid).result = ScatterResult.returned false ∅ ∧
      (scatterGrid env grid).grid = grid ∧
      (scatterGrid env grid).grid.distributed_data_ = none ∧
      (scatterGrid env grid).grid.cell_scatter_gather_interfaces_ =
        grid.cell_scatter_gather_interfaces_ ∧
      (scatterGrid env grid).grid.current_view_data_ = grid.current_view_data_ ∧
      (∀ ev ∈ (scatterGrid env grid).events, ev.isCerr = true) := by
  have hsome : ¬ (grid.distributed_data_.isSome = true) := by simp [hnone]
  have hsize : ¬ (grid.data_.ccobj_.size > 1) := by rw [hone]; decide
  cases hmpi : env.HAVE_MPI with
  | true =>
    have hout : scatterGrid env grid =
        { grid := grid
          events := [Event.cerr
            "CpGrid::scatterGrid() only makes sense in a parallel run. This run only uses one process.\n"]
          result := ScatterResult.returned false ∅ } := by
      unfold scatterGrid
      rw [if_neg hsome, hmpi, if_pos rfl]
      simp only [if_neg hsize]
    rw [hout]
    refine ⟨rfl, rfl, hnone, rfl, rfl, ?_⟩
    intro ev hev
    rw [List.mem_singleton.mp hev]
    rfl
  | false =>
    have hout : scatterGrid env grid =
        { grid := grid
          events := [Event.cerr
            "CpGrid::scatterGrid() is non-trivial only with MPI support and if the target Dune platform is sufficiently recent.\n"]
          result := ScatterResult.returned false ∅ } := by
      unfold scatterGrid
      rw [if_neg hsome, hmpi, if_neg (by decide)]
    rw [hout]
    refine ⟨rfl, rfl, hnone, rfl, rfl, ?_⟩
    intro ev hev
    rw [List.mem_singleton.mp hev]
    rfl

/-- C9 at a grid on one process, with MPI and the partitioner available. -/
theorem scatterGrid_single_process_witness :
    ((sampleGrid 1).distributed_data_ = none ∧ (sampleGrid 1).data_.ccobj_.size = 1) ∧
    ((scatterGrid sampleEnv (sampleGrid 1)).result = ScatterResult.returned false ∅ ∧
      (scatterGrid sampleEnv (sampleGrid 1)).grid = sampleGrid 1 ∧
      (scatterGrid sampleEnv (sampleGrid 1)).grid.distributed_data_ = none ∧
      (scatterGrid sampleEnv (sampleGrid 1)).grid.cell_scatter_gather_interfaces_ =
        (sampleGrid 1).cell_scatter_gather_interfaces_ ∧
      (scatterGrid sampleEnv (sampleGrid 1)).grid.current_view_data_ =
        (sampleGrid 1).current_view_data_ ∧
      (∀ ev ∈ (scatterGrid sampleEnv (sampleGrid 1)).events, ev.isCerr = true)) :=
  ⟨⟨rfl, rfl⟩, scatterGrid_single_process sampleEnv (sampleGrid 1) rfl rfl⟩

theorem foldl_sendStep_assertOk_false (es : List ExportEntry) (st : SendState)
    (h : st.assertOk = false) : (es.foldl sendStep st).assertOk = false := by
  induction es generalizing st with
  | nil => exact h
  | cons e es ih =>
    rw [List.foldl_cons]
    apply ih
    simp [sendStep, h]

/-- The loop that stops at a failed assertion and the loop that records the
assertion agree on whether the assertion held at every entry. -/
theorem sendLoopChecked_assertOk (es : List ExportEntry) (st : SendState)
    (h : st.assertOk = true) :
    (sendLoopChecked es st).assertOk = (es.foldl sendStep st).assertOk := by
  induction es generalizing st with
  | nil => rfl
  | cons e es ih =>
    rw [List.foldl_cons]
    by_cases h1 : (sendStep st e).assertOk = true
    · simp only [sendLoopChecked, if_pos h1]
      exact ih (sendStep st e) h1
    · simp only [sendLoopChecked, if_neg h1]
      rw [foldl_sendStep_assertOk_false es (sendStep st e) (by simpa using h1)]

theorem setupSendInterfaceChecked_assertOk (list : List ExportEntry)
    (interface : InterfaceMap) :
    (setupSendInterfaceChecked list interface).assertOk =
      (setupSendInterfaceState list interface).assertOk := by
  unfold setupSendInterfaceChecked setupSendInterfaceState
  exact sendLoopChecked_assertOk list _ rfl

/-- The ways the distributing branch of `scatterGrid` ends, by the number of
cells of the distributed instance: without cells the view is not switched and,
unless the sortedness check has stopped the call, the error is thrown; with
cells the call returns and the view is switched. -/
theorem scatterGrid_distributing (env : Env) (grid : CpGrid)
    (hnone : grid.distributed_data_ = none) (hmpi : env.HAVE_MPI = true)
    (hzoltan : env.HAVE_ZOLTAN = true) (hsize : grid.data_.ccobj_.size > 1) :
    ∃ dd : CpGridData, (scatterGrid env grid).grid.distributed_data_ = some dd ∧
      (dd.cell_to_face_.length = 0 →
        (scatterGrid env grid).grid.current_view_data_ = grid.current_view_data_ ∧
        (exportCheckPasses env grid → (scatterGrid env grid).result.isThrown = true)) ∧
      (dd.cell_to_face_.length ≠ 0 →
        (scatterGrid env grid).result =
          ScatterResult.returned true (env.zoltanGraphPartitionGridOnRoot grid).defunct_wells ∧
        (scatterGrid env grid).grid.current_view_data_ = ViewPointer.distributed) ∧
      (scatterGrid env grid).grid.data_ = grid.data_ := by
  have hsome : ¬ (grid.distributed_data_.isSome = true) := by simp [hnone]
  unfold scatterGrid
  rw [if_neg hsome, hmpi, if_pos rfl]
  simp only [if_pos hsize, hzoltan, if_true]
  split
  · rename_i hab
    refine ⟨_, rfl, ?_, ?_, rfl⟩
    · intro _
      refine ⟨rfl, fun hpass => ?_⟩
      exfalso
      rw [setupSendInterfaceChecked_assertOk] at hab
      unfold exportCheckPasses scatterExportList at hpass
      rcases hpass with h1 | h1
      · simp [h1] at hab
      · simp [h1] at hab
    · intro hne
      exact absurd rfl hne
  · split
    · rename_i h0
      refine ⟨_, rfl, ?_, ?_, rfl⟩
      · intro _
        exact ⟨rfl, fun _ => rfl⟩
      · intro hne
        exact absurd (by exact_mod_cast h0) hne
    · rename_i h0
      refine ⟨_, rfl, ?_, ?_, rfl⟩
      · intro hz
        exact absurd (by exact_mod_cast hz) h0
      · intro _
        exact ⟨rfl, rfl⟩

/-- The branch of `scatterGrid` for a grid that already has a distributed
instance. -/
theorem scatterGrid_of_isSome (env : Env) (grid : CpGrid)
    (h : grid.distributed_data_.isSome = true) :
    scatterGrid env grid =
      { grid := grid
        events := [Event.cerr
          "There is already a distributed version of the grid. Maybe scatterGrid was called before?\n"]
        result := ScatterResult.returned false ∅ } := by
  unfold scatterGrid
  rw [if_pos h]

/-- C11: on the success path of `scatterGrid` (no distributed instance yet,
more than one process, partitioner available, non-zero materialized cell
count) the call returns (true, defunct wells given by the partitioner), the
active view afterwards is the newly created distributed instance, and the
undistributed data `data_` is what it was before the call. -/
theorem scatterGrid_success (env : Env) (grid : CpGrid)
    (hnone : grid.distributed_data_ = none) (hmpi : env.HAVE_MPI = true)
    (hzoltan : env.HAVE_ZOLTAN = true) (hsize : grid.data_.ccobj_.size > 1)
    (dd : CpGridData) (hdd : (scatterGrid env grid).grid.distributed_data_ = some dd)
    (hcells : dd.cell_to_face_.length ≠ 0) :
    (scatterGrid env grid).result =
        ScatterResult.returned true (env.zoltanGraphPartitionGridOnRoot grid).defunct_wells ∧
      (scatterGrid env grid).grid.current_view_data_ = ViewPointer.distributed ∧
      (scatterGrid env grid).grid.currentView = dd ∧
      (scatterGrid env grid).grid.data_ = grid.data_ := by
  obtain ⟨dd2, hdd2, _, hpos, hdata⟩ :=
    scatterGrid_distributing env grid hnone hmpi hzoltan hsize
  have hEq : dd2 = dd := by
    rw [hdd2] at hdd
    exact Option.some.inj hdd
  subst hEq
  obtain ⟨hres, hview⟩ := hpos hcells
  refine ⟨hres, hview, ?_, hdata⟩
  unfold CpGrid.currentView
  rw [hview, hdd2]
  rfl

/-- C11 at the sample partitioning on two processes: the call returns
(true, {"W1"}) and the active view is the distributed instance with three
cells. -/
theorem scatterGrid_success_witness :
    ((sampleGrid 2).distributed_data_ = none ∧ sampleEnv.HAVE_MPI = true ∧
      sampleEnv.HAVE_ZOLTAN = true ∧ (sampleGrid 2).data_.ccobj_.size > 1 ∧
      (scatterGrid sampleEnv (sampleGrid 2)).grid.distributed_data_ = some sampleDistributed ∧
      sampleDistributed.cell_to_face_.length ≠ 0) ∧
    ((scatterGrid sampleEnv (sampleGrid 2)).result =
        ScatterResult.returned true
          (sampleEnv.zoltanGraphPartitionGridOnRoot (sampleGrid 2)).defunct_wells ∧
      (scatterGrid sampleEnv (sampleGrid 2)).grid.current_view_data_ = ViewPointer.distributed ∧
      (scatterGrid sampleEnv (sampleGrid 2)).grid.currentView = sampleDistributed ∧
      (scatterGrid sampleEnv (sampleGrid 2)).grid.data_ = (sampleGrid 2).data_) :=
  ⟨⟨rfl, rfl, rfl, by decide, by decide, by decide⟩,
   scatterGrid_success sampleEnv (sampleGrid 2) rfl rfl rfl (by decide) sampleDistributed
     (by decide) (by decide)⟩

/-- C20: when `scatterGrid` on a grid without distributed instance (active view
the undistributed data, more than one process, partitioner available) throws
the zero-cell error, the active view is still the undistributed data and the
distributed instance is set; every later call on that grid, with whatever
collaborators, returns (false, empty set) through the already-distributed
branch, with output on the error stream only, and leaves the grid as it is, so
the same holds after any number of later calls. -/
theorem scatterGrid_after_zero_cell_abort (env : Env) (grid : CpGrid)
    (hnone : grid.distributed_data_ = none)
    (hview : grid.current_view_data_ = ViewPointer.data)
    (hmpi : env.HAVE_MPI = true) (hzoltan : env.HAVE_ZOLTAN = true)
    (hsize : grid.data_.ccobj_.size > 1)
    (hthrown : (scatterGrid env grid).result.isThrown = true) :
    ((scatterGrid env grid).grid.current_view_data_ = ViewPointer.data ∧
        (scatterGrid env grid).grid.currentView = grid.data_) ∧
      (scatterGrid env grid).grid.distributed_data_.isSome = true ∧
      (∀ env2 : Env,
        (scatterGrid env2 (scatterGrid env grid).grid).result =
            ScatterResult.returned false ∅ ∧
          (scatterGrid env2 (scatterGrid env grid).grid).grid = (scatterGrid env grid).grid ∧
          (∀ ev ∈ (scatterGrid env2 (scatterGrid env grid).grid).events, ev.isCerr = true)) ∧
      (∀ (env2 : Env) (n : Nat),
        (fun g => (scatterGrid env2 g).grid)^[n] (scatterGrid env grid).grid =
          (scatterGrid env grid).grid) := by
  obtain ⟨dd, hdd, hzero, hpos, hdata⟩ :=
    scatterGrid_distributing env grid hnone hmpi hzoltan hsize
  have hlen : dd.cell_to_face_.length = 0 := by
    by_contra hne
    rw [(hpos hne).1] at hthrown
    simp [ScatterResult.isThrown] at hthrown
  have hv : (scatterGrid env grid).grid.current_view_data_ = ViewPointer.data := by
    rw [(hzero hlen).1, hview]
  have hsome : (scatterGrid env grid).grid.distributed_data_.isSome = true := by
    rw [hdd]
    rfl
  have hlater : ∀ env2 : Env,
      scatterGrid env2 (scatterGrid env grid).grid =
        { grid := (scatterGrid env grid).grid
          events := [Event.cerr
            "There is already a distributed version of the grid. Maybe scatterGrid was called before?\n"]
          result := ScatterResult.returned false ∅ } :=
    fun env2 => scatterGrid_of_isSome env2 _ hsome
  refine ⟨⟨hv, ?_⟩, hsome, ?_, ?_⟩
  · unfold CpGrid.currentView
    rw [hv]
    exact hdata
  · intro env2
    rw [hlater env2]
    refine ⟨rfl, rfl, ?_⟩
    intro ev hev
    rw [List.mem_singleton.mp hev]
    rfl
  · intro env2 n
    apply Function.iterate_fixed
    show (scatterGrid env2 (scatterGrid env grid).grid).grid = (scatterGrid env grid).grid
    rw [hlater env2]

/-- C20 at the sample partitioning with a materializer that creates no cell:
the first call throws, the view stays on the undistributed data, and a second
call returns (false, empty set). -/
theorem scatterGrid_after_zero_cell_abort_witness :
    ((sampleGrid 2).distributed_data_ = none ∧
      (sampleGrid 2).current_view_data_ = ViewPointer.data ∧
      (scatterGrid sampleEnvNoCells (sampleGrid 2)).result.isThrown = true) ∧
    (((scatterGrid sampleEnvNoCells (sampleGrid 2)).grid.current_view_data_ = ViewPointer.data ∧
        (scatterGrid sampleEnvNoCells (sampleGrid 2)).grid.currentView = (sampleGrid 2).data_) ∧
      (scatterGrid sampleEnvNoCells (sampleGrid 2)).grid.distributed_data_.isSome = true ∧
      (∀ env2 : Env,
        (scatterGrid env2 (scatterGrid sampleEnvNoCells (sampleGrid 2)).grid).result =
            ScatterResult.returned false ∅ ∧
          (scatterGrid env2 (scatterGrid sampleEnvNoCells (sampleGrid 2)).grid).grid =
            (scatterGrid sampleEnvNoCells (sampleGrid 2)).grid ∧
          (∀ ev ∈ (scatterGrid env2 (scatterGrid sampleEnvNoCells (sampleGrid 2)).grid).events,
            ev.isCerr = true)) ∧
      (∀ (env2 : Env) (n : Nat),
        (fun g => (scatterGrid env2 g).grid)^[n]
            (scatterGrid sampleEnvNoCells (sampleGrid 2)).grid =
          (scatterGrid sampleEnvNoCells (sampleGrid 2)).grid)) ∧
    (scatterGrid sampleEnv (scatterGrid sampleEnvNoCells (sampleGrid 2)).grid).result =
      ScatterResult.returned false ∅ :=
  ⟨⟨rfl, rfl, by decide⟩,
   scatterGrid_after_zero_cell_abort sampleEnvNoCells (sampleGrid 2) rfl rfl rfl rfl
     (by decide) (by decide),
   by decide⟩

/-! ## The ranks of a map -/

theorem mapFind_mapUpdate_eq_none {V : Type} (dflt : V) (m : List (Int × V)) (key : Int)
    (f : V → V) (k : Int) :
    mapFind (mapUpdate dflt m key f) k = none ↔ k ≠ key ∧ mapFind m k = none := by
  rw [mapFind_mapUpdate]
  by_cases h : k = key
  · simp [h]
  · simp [h]

theorem mapFind_eq_none_iff {V : Type} (m : List (Int × V)) (k : Int) :
    mapFind m k = none ↔ k ∉ m.map Prod.fst := by
  induction m with
  | nil => simp [mapFind]
  | cons hd tl ih =>
    obtain ⟨k0, v0⟩ := hd
    by_cases h : k = k0
    · simp [mapFind, h]
    · simp [mapFind, h, ih]

/-- A loop whose every step touches the map only by `m[key]` leaves exactly the
old ranks and the keys of the walked list in the map. -/
theorem foldl_mapFind_eq_none {S X V : Type} (proj : S → List (Int × V))
    (step : S → X → S) (key : X → Int)
    (hstep : ∀ s x k, mapFind (proj (step s x)) k = none ↔
      k ≠ key x ∧ mapFind (proj s) k = none)
    (xs : List X) (s : S) (k : Int) :
    mapFind (proj (xs.foldl step s)) k = none ↔
      mapFind (proj s) k = none ∧ k ∉ xs.map key := by
  induction xs generalizing s with
  | nil => simp
  | cons x xs ih =>
    rw [List.foldl_cons, ih, hstep]
    simp only [List.map_cons, List.mem_cons, not_or]
    tauto

theorem countProcs_eq_none {T : Type} (get1 : T → Int) (list : List T) (k : Int) :
    mapFind (countProcs get1 list) k = none ↔ k ∉ list.map get1 := by
  unfold countProcs
  rw [foldl_mapFind_eq_none (fun m => m)
    (fun (m : List (Int × Nat)) (entry : T) => mapUpdate 0 m (get1 entry) (fun n => n + 1))
    get1 (fun s x k => mapFind_mapUpdate_eq_none _ _ _ _ _)]
  simp [mapFind]

theorem reserveInterface_eq_none {T : Type} (get1 : T → Int) (list : List T)
    (interface : InterfaceMap) (first : Bool) (k : Int) :
    mapFind (reserveInterface get1 list interface first) k = none ↔
      mapFind interface k = none ∧ k ∉ list.map get1 := by
  unfold reserveInterface
  rw [foldl_mapFind_eq_none (fun m => m)
    (fun (m : InterfaceMap) (proc : Int × Nat) =>
      mapUpdate InterfacePair.empty m proc.1 (fun entry =>
        if first then (entry.1.reserve proc.2, entry.2)
        else (entry.1, entry.2.reserve proc.2)))
    Prod.fst (fun s x k => mapFind_mapUpdate_eq_none _ _ _ _ _),
    ← mapFind_eq_none_iff, countProcs_eq_none]

theorem sendStep_eq_none (st : SendState) (e : ExportEntry) (k : Int) :
    mapFind (sendStep st e).interface k = none ↔
      k ≠ e.get1 ∧ mapFind st.interface k = none := by
  simp only [sendStep]
  exact mapFind_mapUpdate_eq_none _ _ _ _ _

theorem recvStep_eq_none (m : InterfaceMap) (e : ImportEntry) (k : Int) :
    mapFind (recvStep m e) k = none ↔ k ≠ e.get1 ∧ mapFind m k = none := by
  simp only [recvStep]
  exact mapFind_mapUpdate_eq_none _ _ _ _ _

theorem setupSendInterface_eq_none (list : List ExportEntry) (interface : InterfaceMap)
    (k : Int) :
    mapFind (setupSendInterface list interface) k = none ↔
      mapFind interface k = none ∧ k ∉ list.map ExportEntry.get1 := by
  unfold setupSendInterface setupSendInterfaceState
  rw [foldl_mapFind_eq_none SendState.interface sendStep ExportEntry.get1 sendStep_eq_none]
  simp only [reserveInterface_eq_none]
  tauto

theorem setupRecvInterface_eq_none (list : List ImportEntry) (interface : InterfaceMap)
    (k : Int) :
    mapFind (setupRecvInterface list interface) k = none ↔
      mapFind interface k = none ∧ k ∉ list.map ImportEntry.get1 := by
  unfold setupRecvInterface
  rw [foldl_mapFind_eq_none (fun m => m) recvStep ImportEntry.get1 recvStep_eq_none]
  simp only [reserveInterface_eq_none]
  tauto

theorem hasRank_eq_true_iff (interface : InterfaceMap) (k : Int) :
    hasRank interface k = true ↔ ¬ mapFind interface k = none := by
  unfold hasRank
  cases mapFind interface k <;> simp

theorem sendList_setupRecvInterface (list : List ImportEntry) (interface : InterfaceMap)
    (rank : Int) :
    sendList (setupRecvInterface list interface) rank = sendList interface rank := by
  unfold setupRecvInterface
  have h : ∀ (es : List ImportEntry) (m : InterfaceMap),
      sendList (es.foldl recvStep m) rank = sendList m rank := by
    intro es
    induction es with
    | nil => intro m; rfl
    | cons x xs ih =>
      intro m
      rw [List.foldl_cons, ih, sendList_recvStep]
  rw [h, sendList_reserveInterface]

theorem recvList_setupSendInterface (list : List ExportEntry) (interface : InterfaceMap)
    (rank : Int) :
    recvList (setupSendInterface list interface) rank = recvList interface rank := by
  unfold setupSendInterface setupSendInterfaceState
  have h : ∀ (es : List ExportEntry) (st : SendState),
      recvList (es.foldl sendStep st).interface rank = recvList st.interface rank := by
    intro es
    induction es with
    | nil => intro st; rfl
    | cons x xs ih =>
      intro st
      rw [List.foldl_cons, ih, recvList_sendStep]
  rw [h, recvList_reserveInterface]

/-! ## Claims on reservation, permutation and non-interference -/

/-- C15: `reserveInterface`, in the send-side and in the receive-side variant,
for every list and every interface map: the contents of the send list and of
the receive list of every rank are what they were; a rank is in the map
afterwards exactly if it was in the map before or occurs as field 1 of some
list entry, so no rank absent from the list is created; and a rank that was
not in the map before has an empty send list and an empty receive list. -/
theorem reserveInterface_frame {T : Type} (get1 : T → Int) (list : List T)
    (interface : InterfaceMap) (first : Bool) (rank : Int) :
    sendList (reserveInterface get1 list interface first) rank = sendList interface rank ∧
      recvList (reserveInterface get1 list interface first) rank = recvList interface rank ∧
      (hasRank (reserveInterface get1 list interface first) rank = true ↔
        hasRank interface rank = true ∨ rank ∈ list.map get1) ∧
      (hasRank interface rank = false →
        ∀ e, mapFind (reserveInterface get1 list interface first) rank = some e →
          e.1.indices = [] ∧ e.2.indices = []) := by
  have hs := sendList_reserveInterface get1 list interface first rank
  have hr := recvList_reserveInterface get1 list interface first rank
  refine ⟨hs, hr, ?_, ?_⟩
  · rw [hasRank_eq_true_iff, hasRank_eq_true_iff, reserveInterface_eq_none]
    tauto
  · intro hno e he
    have hnone : mapFind interface rank = none := by
      unfold hasRank at hno
      cases hm : mapFind interface rank with
      | none => rfl
      | some v => rw [hm] at hno; simp at hno
    unfold sendList at hs
    unfold recvList at hr
    rw [he, hnone] at hs hr
    exact ⟨hs, hr⟩

theorem numberEntries_importKey (c : Int) (l : List ImportEntry) :
    (numberEntries c l).map importKey = l.map importKey := by
  induction l generalizing c with
  | nil => rfl
  | cons e es ih => simp [numberEntries, ih, importKey]

/-- C17: the local index assignment only reorders and numbers: for every import
list, owner count and owners-first flag the result has as many entries as the
input and its entries, read as (global index, source rank, attribute code),
are a permutation of those of the input. -/
theorem assignLocalIndices_perm (ownersFirst : Bool) (noImportedOwner : Nat)
    (importList : List ImportEntry) :
    List.Perm ((assignLocalIndices ownersFirst noImportedOwner importList).map importKey)
        (importList.map importKey) ∧
      (assignLocalIndices ownersFirst noImportedOwner importList).length =
        importList.length := by
  have hp : List.Perm
      ((assignLocalIndices ownersFirst noImportedOwner importList).map importKey)
      (importList.map importKey) := by
    cases ownersFirst with
    | false =>
      simp only [assignLocalIndices, Bool.not_false, if_true, Bool.false_eq_true, if_false]
      rw [numberEntries_importKey]
      exact (inplace_merge_perm _ _ _).map _
    | true =>
      simp only [assignLocalIndices, Bool.not_true, Bool.false_eq_true, if_false, if_true]
      rw [← numberEntries_importKey 0 importList]
      exact (inplace_merge_perm _ _ _).map _
  refine ⟨hp, ?_⟩
  have hl := hp.length_eq
  simpa using hl

/-- C18: send and receive construction do not interfere: for every interface
map, export list and import list, `setupRecvInterface` leaves the send list of
every rank unchanged and `setupSendInterface` leaves the receive list of every
rank unchanged; after `setupSendInterface` and then `setupRecvInterface` on a
fresh map a rank is in the map exactly if it is the destination of an export
entry or the source of an import entry. -/
theorem send_recv_do_not_interfere (interface : InterfaceMap)
    (exportList : List ExportEntry) (importList : List ImportEntry) (rank : Int) :
    sendList (setupRecvInterface importList interface) rank = sendList interface rank ∧
      recvList (setupSendInterface exportList interface) rank = recvList interface rank ∧
      (hasRank (setupRecvInterface importList (setupSendInterface exportList [])) rank = true ↔
        rank ∈ exportList.map ExportEntry.get1 ∨ rank ∈ importList.map ImportEntry.get1) := by
  refine ⟨sendList_setupRecvInterface _ _ _, recvList_setupSendInterface _ _ _, ?_⟩
  rw [hasRank_eq_true_iff, setupRecvInterface_eq_none, setupSendInterface_eq_none]
  simp only [mapFind, true_and]
  tauto

/-! ## Stability of the merge -/

theorem mergeRanges_sublist_left {α : Type} (comp : α → α → Bool) (xs ys : List α) :
    xs.Sublist (mergeRanges comp xs ys) := by
  induction xs generalizing ys with
  | nil => exact List.nil_sublist _
  | cons x xs ihx =>
    induction ys with
    | nil => rw [mergeRanges_nil_right]
    | cons y ys ihy =>
      rw [mergeRanges_cons_cons]
      by_cases h : comp y x = true
      · rw [if_pos h]
        exact List.Sublist.cons y ihy
      · rw [if_neg h]
        exact List.Sublist.cons₂ x (ihx (y :: ys))

theorem mergeRanges_sublist_right {α : Type} (comp : α → α → Bool) (xs ys : List α) :
    ys.Sublist (mergeRanges comp xs ys) := by
  induction xs generalizing ys with
  | nil => exact List.Sublist.refl _
  | cons x xs ihx =>
    induction ys with
    | nil => exact List.nil_sublist _
    | cons y ys ihy =>
      rw [mergeRanges_cons_cons]
      by_cases h : comp y x = true
      · rw [if_pos h]
        exact List.Sublist.cons₂ y ihy
      · rw [if_neg h]
        exact List.Sublist.cons x (ihx (y :: ys))

/-- Among the entries of one global index the merge puts those of the first
range first, each range in its own order. -/
theorem mergeRanges_filter_global (xs ys : List ImportEntry) (hx : importSorted xs)
    (g : Int) :
    (mergeRanges compareImport xs ys).filter (fun e => decide (e.get0 = g)) =
      xs.filter (fun e => decide (e.get0 = g)) ++ ys.filter (fun e => decide (e.get0 = g)) := by
  unfold importSorted at hx
  induction xs generalizing ys with
  | nil => rfl
  | cons x xs ihx =>
    induction ys with
    | nil => rw [mergeRanges_nil_right]; simp
    | cons y ys ihy =>
      rw [mergeRanges_cons_cons]
      by_cases h : compareImport y x = true
      · rw [if_pos h]
        have hlt : y.get0 < x.get0 := by simpa [compareImport] using h
        by_cases hy : y.get0 = g
        · have hnone : (x :: xs).filter (fun e => decide (e.get0 = g)) = [] := by
            apply List.filter_eq_nil_iff.mpr
            intro a ha
            have hxa : x.get0 ≤ a.get0 := by
              rcases List.mem_cons.mp ha with h1 | h1
              · rw [h1]
              · exact List.rel_of_pairwise_cons hx h1
            have : a.get0 ≠ g := by omega
            simpa using this
          have e1 : (y :: ys).filter (fun e => decide (e.get0 = g)) =
              y :: ys.filter (fun e => decide (e.get0 = g)) :=
            List.filter_cons_of_pos (by simpa using hy)
          have e2 : (y :: mergeRanges compareImport (x :: xs) ys).filter
              (fun e => decide (e.get0 = g)) =
              y :: (mergeRanges compareImport (x :: xs) ys).filter
                (fun e => decide (e.get0 = g)) :=
            List.filter_cons_of_pos (by simpa using hy)
          rw [e1, e2, ihy, hnone]
          rfl
        · have e1 : (y :: ys).filter (fun e => decide (e.get0 = g)) =
              ys.filter (fun e => decide (e.get0 = g)) :=
            List.filter_cons_of_neg (by simpa using hy)
          have e2 : (y :: mergeRanges compareImport (x :: xs) ys).filter
              (fun e => decide (e.get0 = g)) =
              (mergeRanges compareImport (x :: xs) ys).filter
                (fun e => decide (e.get0 = g)) :=
            List.filter_cons_of_neg (by simpa using hy)
          rw [e1, e2, ihy]
      · rw [if_neg h]
        have ih := ihx (y :: ys) (List.Pairwise.of_cons hx)
        by_cases hxg : x.get0 = g
        · have e1 : (x :: xs).filter (fun e => decide (e.get0 = g)) =
              x :: xs.filter (fun e => decide (e.get0 = g)) :=
            List.filter_cons_of_pos (by simpa using hxg)
          have e2 : (x :: mergeRanges compareImport xs (y :: ys)).filter
              (fun e => decide (e.get0 = g)) =
              x :: (mergeRanges compareImport xs (y :: ys)).filter
                (fun e => decide (e.get0 = g)) :=
            List.filter_cons_of_pos (by simpa using hxg)
          rw [e1, e2, ih]
          rfl
        · have e1 : (x :: xs).filter (fun e => decide (e.get0 = g)) =
              xs.filter (fun e => decide (e.get0 = g)) :=
            List.filter_cons_of_neg (by simpa using hxg)
          have e2 : (x :: mergeRanges compareImport xs (y :: ys)).filter
              (fun e => decide (e.get0 = g)) =
              (mergeRanges compareImport xs (y :: ys)).filter
                (fun e => decide (e.get0 = g)) :=
            List.filter_cons_of_neg (by simpa using hxg)
          rw [e1, e2, ih]

/-- A predicate that holds on the first range and fails on the second
separates the merged range again. -/
theorem mergeRanges_filter_split {α : Type} (comp : α → α → Bool) (p : α → Bool)
    (xs ys : List α) (hx : ∀ x ∈ xs, p x = true) (hy : ∀ y ∈ ys, p y = false) :
    (mergeRanges comp xs ys).filter p = xs ∧
      (mergeRanges comp xs ys).filter (fun e => !p e) = ys := by
  induction xs generalizing ys with
  | nil =>
    refine ⟨List.filter_eq_nil_iff.mpr (fun a ha => by simp [hy a ha]), ?_⟩
    exact List.filter_eq_self.mpr (fun a ha => by simp [hy a ha])
  | cons x xs ihx =>
    induction ys with
    | nil =>
      rw [mergeRanges_nil_right]
      refine ⟨List.filter_eq_self.mpr hx, ?_⟩
      exact List.filter_eq_nil_iff.mpr (fun a ha => by simp [hx a ha])
    | cons y ys ihy =>
      have hpx : p x = true := hx x (List.mem_cons_self _ _)
      have hpy : p y = false := hy y (List.mem_cons_self _ _)
      rw [mergeRanges_cons_cons]
      by_cases h : comp y x = true
      · rw [if_pos h]
        have ih := ihy (fun b hb => hy b (List.mem_cons_of_mem _ hb))
        rw [List.filter_cons_of_neg (by simp [hpy]), List.filter_cons_of_pos (by simp [hpy]),
          ih.1, ih.2]
        exact ⟨rfl, rfl⟩
      · rw [if_neg h]
        have ih := ihx (y :: ys) (fun a ha => hx a (List.mem_cons_of_mem _ ha)) hy
        rw [List.filter_cons_of_pos hpx, List.filter_cons_of_neg (by simp [hpx]), ih.1, ih.2]
        exact ⟨rfl, rfl⟩

theorem mergeRanges_sorted_append (xs ys : List ImportEntry)
    (h : importSorted (xs ++ ys)) : mergeRanges compareImport xs ys = xs ++ ys := by
  unfold importSorted at h
  induction xs with
  | nil => rfl
  | cons x xs ih =>
    cases ys with
    | nil => rw [mergeRanges_nil_right, List.append_nil]
    | cons y ys =>
      rw [mergeRanges_cons_cons]
      have hxy : x.get0 ≤ y.get0 :=
        List.rel_of_pairwise_cons h (List.mem_append_right _ (List.mem_cons_self _ _))
      have hc : ¬ compareImport y x = true := by
        simp only [compareImport, decide_eq_true_eq]
        omega
      rw [if_neg hc, ih (List.Pairwise.of_cons h)]
      rfl

theorem inplace_merge_of_sorted (l : List ImportEntry) (middle : Nat)
    (h : importSorted l) : inplace_merge l middle compareImport = l := by
  unfold inplace_merge
  rw [mergeRanges_sorted_append _ _ (by rw [List.take_append_drop]; exact h),
    List.take_append_drop]

/-! ## More on the numbering loop -/

theorem numberEntries_take (c : Int) (l : List ImportEntry) (k : Nat) :
    (numberEntries c l).take k = numberEntries c (l.take k) := by
  induction l generalizing c k with
  | nil => simp [numberEntries]
  | cons e es ih =>
    cases k with
    | zero => simp [numberEntries]
    | succ k => simp [numberEntries, ih]

theorem numberEntries_drop (c : Int) (l : List ImportEntry) (k : Nat) :
    (numberEntries c l).drop k = numberEntries (c + (k : Int)) (l.drop k) := by
  induction l generalizing c k with
  | nil => simp [numberEntries]
  | cons e es ih =>
    cases k with
    | zero => simp
    | succ k =>
      simp only [numberEntries, List.drop_succ_cons, ih]
      congr 1
      push_cast
      omega

theorem numberEntries_idem (c d : Int) (l : List ImportEntry) :
    numberEntries c (numberEntries d l) = numberEntries c l := by
  induction l generalizing c d with
  | nil => rfl
  | cons e es ih => simp [numberEntries, ih]

theorem numberEntries_get3_bounds (c : Int) (l : List ImportEntry) (e : ImportEntry)
    (he : e ∈ numberEntries c l) : c ≤ e.get3 ∧ e.get3 < c + (l.length : Int) := by
  have hm : e.get3 ∈ (numberEntries c l).map ImportEntry.get3 := List.mem_map_of_mem _ he
  rw [numberEntries_get3] at hm
  obtain ⟨i, hi, hEq⟩ := List.mem_map.mp hm
  have hi2 := List.mem_range.mp hi
  omega

/-! ## Claims on the merge and the owners-first branch -/

/-- C16: the merge of `scatterGrid` is stable and compares by global index
only: for every import list whose owner sub-range and overlap sub-range are
each sorted, the owner entries keep their relative order in the merged list,
the overlap entries keep theirs, and for every global index the merged entries
of that index are the owner entries of that index followed by the overlap
entries of that index, each in their original order, whatever their other
fields. -/
theorem inplace_merge_stable (importList : List ImportEntry) (noImportedOwner : Nat)
    (hown : importSorted (importList.take noImportedOwner))
    (hovl : importSorted (importList.drop noImportedOwner)) :
    (importList.take noImportedOwner).Sublist
        (inplace_merge importList noImportedOwner compareImport) ∧
      (importList.drop noImportedOwner).Sublist
        (inplace_merge importList noImportedOwner compareImport) ∧
      (∀ g : Int,
        (inplace_merge importList noImportedOwner compareImport).filter
            (fun e => decide (e.get0 = g)) =
          (importList.take noImportedOwner).filter (fun e => decide (e.get0 = g)) ++
            (importList.drop noImportedOwner).filter (fun e => decide (e.get0 = g))) ∧
      importSorted (inplace_merge importList noImportedOwner compareImport) :=
  ⟨mergeRanges_sublist_left _ _ _, mergeRanges_sublist_right _ _ _,
   fun g => mergeRanges_filter_global _ _ hown g, inplace_merge_sorted _ _ hown hovl⟩

/-- C16 at an import list with two owner entries and two overlap entries, one
of which shares the global index 5 with an owner entry: the owner entry of
index 5 comes first. -/
theorem inplace_merge_stable_witness :
    (importSorted (List.take 2
        [(⟨5, 0, 'o', 0⟩ : ImportEntry), ⟨9, 0, 'o', 0⟩, ⟨5, 1, 'c', 0⟩, ⟨7, 1, 'c', 0⟩]) ∧
      importSorted (List.drop 2
        [(⟨5, 0, 'o', 0⟩ : ImportEntry), ⟨9, 0, 'o', 0⟩, ⟨5, 1, 'c', 0⟩, ⟨7, 1, 'c', 0⟩])) ∧
    ((List.take 2
          [(⟨5, 0, 'o', 0⟩ : ImportEntry), ⟨9, 0, 'o', 0⟩, ⟨5, 1, 'c', 0⟩, ⟨7, 1, 'c', 0⟩]).Sublist
        (inplace_merge [⟨5, 0, 'o', 0⟩, ⟨9, 0, 'o', 0⟩, ⟨5, 1, 'c', 0⟩, ⟨7, 1, 'c', 0⟩] 2
          compareImport) ∧
      (List.drop 2
          [(⟨5, 0, 'o', 0⟩ : ImportEntry), ⟨9, 0, 'o', 0⟩, ⟨5, 1, 'c', 0⟩, ⟨7, 1, 'c', 0⟩]).Sublist
        (inplace_merge [⟨5, 0, 'o', 0⟩, ⟨9, 0, 'o', 0⟩, ⟨5, 1, 'c', 0⟩, ⟨7, 1, 'c', 0⟩] 2
          compareImport) ∧
      (∀ g : Int,
        (inplace_merge [⟨5, 0, 'o', 0⟩, ⟨9, 0, 'o', 0⟩, ⟨5, 1, 'c', 0⟩, ⟨7, 1, 'c', 0⟩] 2
            compareImport).filter (fun e => decide (e.get0 = g)) =
          (List.take 2
              [(⟨5, 0, 'o', 0⟩ : ImportEntry), ⟨9, 0, 'o', 0⟩, ⟨5, 1, 'c', 0⟩,
                ⟨7, 1, 'c', 0⟩]).filter (fun e => decide (e.get0 = g)) ++
            (List.drop 2
              [(⟨5, 0, 'o', 0⟩ : ImportEntry), ⟨9, 0, 'o', 0⟩, ⟨5, 1, 'c', 0⟩,
                ⟨7, 1, 'c', 0⟩]).filter (fun e => decide (e.get0 = g))) ∧
      importSorted
        (inplace_merge [⟨5, 0, 'o', 0⟩, ⟨9, 0, 'o', 0⟩, ⟨5, 1, 'c', 0⟩, ⟨7, 1, 'c', 0⟩] 2
          compareImport)) ∧
    inplace_merge [⟨5, 0, 'o', 0⟩, ⟨9, 0, 'o', 0⟩, ⟨5, 1, 'c', 0⟩, ⟨7, 1, 'c', 0⟩] 2
        compareImport =
      [⟨5, 0, 'o', 0⟩, ⟨5, 1, 'c', 0⟩, ⟨7, 1, 'c', 0⟩, ⟨9, 0, 'o', 0⟩] :=
  ⟨⟨by decide, by decide⟩,
   inplace_merge_stable [⟨5, 0, 'o', 0⟩, ⟨9, 0, 'o', 0⟩, ⟨5, 1, 'c', 0⟩, ⟨7, 1, 'c', 0⟩] 2
     (by decide) (by decide),
   by decide⟩

theorem assignLocalIndices_ownersFirst (k : Nat) (l : List ImportEntry) :
    assignLocalIndices true k l =
      mergeRanges compareImport (numberEntries 0 (l.take k))
        (numberEntries (k : Int) (l.drop k)) := by
  simp only [assignLocalIndices, Bool.not_true, Bool.false_eq_true, if_false, if_true,
    inplace_merge]
  rw [numberEntries_take, numberEntries_drop, zero_add]

/-- C19: with owners-first = true, for every import list whose owner sub-range
(the first `k` entries) and overlap sub-range are each sorted by global index,
the final list is sorted ascending by global index; its entries with local
index below `k` are the owner entries in their (ascending) order carrying
`0, ..., k - 1`, and its entries with local index from `k` on are the overlap
entries in their (ascending) order carrying `k, ..., N - 1`. -/
theorem assignLocalIndices_owners_first (importList : List ImportEntry) (k : Nat)
    (hk : k ≤ importList.length)
    (hown : importSorted (importList.take k))
    (hovl : importSorted (importList.drop k)) :
    importSorted (assignLocalIndices true k importList) ∧
      ((assignLocalIndices true k importList).filter
          (fun e => decide (e.get3 < (k : Int)))).map importKey =
        (importList.take k).map importKey ∧
      ((assignLocalIndices true k importList).filter
          (fun e => decide (e.get3 < (k : Int)))).map ImportEntry.get3 =
        localIndexRange k ∧
      ((assignLocalIndices true k importList).filter
          (fun e => !decide (e.get3 < (k : Int)))).map importKey =
        (importList.drop k).map importKey ∧
      ((assignLocalIndices true k importList).filter
          (fun e => !decide (e.get3 < (k : Int)))).map ImportEntry.get3 =
        (List.range (importList.length - k)).map (fun i : Nat => (k : Int) + (i : Int)) := by
  have hlen : (importList.take k).length = k := by
    rw [List.length_take]
    omega
  have hsplit := mergeRanges_filter_split compareImport
    (fun e : ImportEntry => decide (e.get3 < (k : Int)))
    (numberEntries 0 (importList.take k)) (numberEntries (k : Int) (importList.drop k))
    (fun e he => by
      have hb := numberEntries_get3_bounds 0 _ e he
      rw [hlen] at hb
      simp only [decide_eq_true_eq]
      omega)
    (fun e he => by
      have hb := numberEntries_get3_bounds (k : Int) _ e he
      simp only [decide_eq_false_iff_not]
      omega)
  rw [assignLocalIndices_ownersFirst]
  refine ⟨?_, ?_, ?_, ?_, ?_⟩
  · exact mergeRanges_sorted _ _ (numberEntries_sorted _ _ hown) (numberEntries_sorted _ _ hovl)
  · rw [hsplit.1, numberEntries_importKey]
  · rw [hsplit.1, numberEntries_zero_get3, hlen]
  · rw [hsplit.2, numberEntries_importKey]
  · rw [hsplit.2, numberEntries_get3, List.length_drop]

/-- C19 at the import list of the specification's scenario with owner count 2:
the owners 5 and 9 carry 0 and 1, the overlap entry 3 carries 2, and the final
list is sorted by global index. -/
theorem assignLocalIndices_owners_first_witness :
    (2 ≤ [(⟨5, 0, 'o', 0⟩ : ImportEntry), ⟨9, 0, 'o', 0⟩, ⟨3, 0, 'c', 0⟩].length ∧
      importSorted (List.take 2
        [(⟨5, 0, 'o', 0⟩ : ImportEntry), ⟨9, 0, 'o', 0⟩, ⟨3, 0, 'c', 0⟩]) ∧
      importSorted (List.drop 2
        [(⟨5, 0, 'o', 0⟩ : ImportEntry), ⟨9, 0, 'o', 0⟩, ⟨3, 0, 'c', 0⟩])) ∧
    (importSorted (assignLocalIndices true 2 [⟨5, 0, 'o', 0⟩, ⟨9, 0, 'o', 0⟩, ⟨3, 0, 'c', 0⟩]) ∧
      ((assignLocalIndices true 2 [⟨5, 0, 'o', 0⟩, ⟨9, 0, 'o', 0⟩, ⟨3, 0, 'c', 0⟩]).filter
          (fun e => decide (e.get3 < ((2 : Nat) : Int)))).map importKey =
        (List.take 2
          [(⟨5, 0, 'o', 0⟩ : ImportEntry), ⟨9, 0, 'o', 0⟩, ⟨3, 0, 'c', 0⟩]).map importKey ∧
      ((assignLocalIndices true 2 [⟨5, 0, 'o', 0⟩, ⟨9, 0, 'o', 0⟩, ⟨3, 0, 'c', 0⟩]).filter
          (fun e => decide (e.get3 < ((2 : Nat) : Int)))).map ImportEntry.get3 =
        localIndexRange 2 ∧
      ((assignLocalIndices true 2 [⟨5, 0, 'o', 0⟩, ⟨9, 0, 'o', 0⟩, ⟨3, 0, 'c', 0⟩]).filter
          (fun e => !decide (e.get3 < ((2 : Nat) : Int)))).map importKey =
        (List.drop 2
          [(⟨5, 0, 'o', 0⟩ : ImportEntry), ⟨9, 0, 'o', 0⟩, ⟨3, 0, 'c', 0⟩]).map importKey ∧
      ((assignLocalIndices true 2 [⟨5, 0, 'o', 0⟩, ⟨9, 0, 'o', 0⟩, ⟨3, 0, 'c', 0⟩]).filter
          (fun e => !decide (e.get3 < ((2 : Nat) : Int)))).map ImportEntry.get3 =
        (List.range
          ([(⟨5, 0, 'o', 0⟩ : ImportEntry), ⟨9, 0, 'o', 0⟩, ⟨3, 0, 'c', 0⟩].length - 2)).map
          (fun i : Nat => ((2 : Nat) : Int) + (i : Int))) ∧
    assignLocalIndices true 2 [⟨5, 0, 'o', 0⟩, ⟨9, 0, 'o', 0⟩, ⟨3, 0, 'c', 0⟩] =
      [⟨3, 0, 'c', 2⟩, ⟨5, 0, 'o', 0⟩, ⟨9, 0, 'o', 1⟩] :=
  ⟨⟨by decide, by decide, by decide⟩,
   assignLocalIndices_owners_first [⟨5, 0, 'o', 0⟩, ⟨9, 0, 'o', 0⟩, ⟨3, 0, 'c', 0⟩] 2
     (by decide) (by decide) (by decide),
   by decide⟩

/-- C12 (amended): for every import list that is sorted by global index as a
whole (owner sub-range followed by overlap sub-range), and every owner count,
running the assignment with owners-first = false and then the assignment with
owners-first = true on its result gives the same list, and so the same local
index for every global index, as running the owners-first = true assignment
directly on the original list. -/
theorem ordering_path_independent_when_sorted (importList : List ImportEntry)
    (noImportedOwner : Nat) (hsorted : importSorted importList) :
    assignLocalIndices true noImportedOwner
        (assignLocalIndices false noImportedOwner importList) =
      assignLocalIndices true noImportedOwner importList ∧
    (∀ g : Int,
      assignedLocalIndex
          (assignLocalIndices true noImportedOwner
            (assignLocalIndices false noImportedOwner importList)) g =
        assignedLocalIndex (assignLocalIndices true noImportedOwner importList) g) := by
  have h : assignLocalIndices true noImportedOwner
      (assignLocalIndices false noImportedOwner importList) =
      assignLocalIndices true noImportedOwner importList := by
    simp only [assignLocalIndices, Bool.not_true, Bool.not_false, Bool.false_eq_true, if_false,
      if_true]
    rw [inplace_merge_of_sorted importList noImportedOwner hsorted, numberEntries_idem]
  exact ⟨h, fun g => by rw [h]⟩

/-- C12 (amended) at an import list sorted as a whole, owner count 2. -/
theorem ordering_path_independent_when_sorted_witness :
    importSorted [⟨3, 0, 'o', 0⟩, ⟨5, 0, 'o', 0⟩, ⟨9, 0, 'c', 0⟩] ∧
    (assignLocalIndices true 2
          (assignLocalIndices false 2 [⟨3, 0, 'o', 0⟩, ⟨5, 0, 'o', 0⟩, ⟨9, 0, 'c', 0⟩]) =
        assignLocalIndices true 2 [⟨3, 0, 'o', 0⟩, ⟨5, 0, 'o', 0⟩, ⟨9, 0, 'c', 0⟩] ∧
      (∀ g : Int,
        assignedLocalIndex
            (assignLocalIndices true 2
              (assignLocalIndices false 2 [⟨3, 0, 'o', 0⟩, ⟨5, 0, 'o', 0⟩, ⟨9, 0, 'c', 0⟩])) g =
          assignedLocalIndex
            (assignLocalIndices true 2 [⟨3, 0, 'o', 0⟩, ⟨5, 0, 'o', 0⟩, ⟨9, 0, 'c', 0⟩]) g)) ∧
    assignLocalIndices true 2 [⟨3, 0, 'o', 0⟩, ⟨5, 0, 'o', 0⟩, ⟨9, 0, 'c', 0⟩] =
      [⟨3, 0, 'o', 0⟩, ⟨5, 0, 'o', 1⟩, ⟨9, 0, 'c', 2⟩] :=
  ⟨by decide,
   ordering_path_independent_when_sorted [⟨3, 0, 'o', 0⟩, ⟨5, 0, 'o', 0⟩, ⟨9, 0, 'c', 0⟩] 2
     (by decide),
   by decide⟩

/-- C12 as stated fails at the import list of the specification's scenario,
owner count 2, whose sub-ranges `[5, 9]` and `[3]` are each sorted: after the
owners-first = false pass, the owners-first = true pass gives global index 5
the local index 1, while the direct owners-first = true pass gives it 0. -/
theorem ordering_path_independent_counterexample :
    importSorted (List.take 2
      [(⟨5, 0, 'o', 0⟩ : ImportEntry), ⟨9, 0, 'o', 0⟩, ⟨3, 0, 'c', 0⟩]) ∧
    importSorted (List.drop 2
      [(⟨5, 0, 'o', 0⟩ : ImportEntry), ⟨9, 0, 'o', 0⟩, ⟨3, 0, 'c', 0⟩]) ∧
    assignedLocalIndex
        (assignLocalIndices true 2
          (assignLocalIndices false 2 [⟨5, 0, 'o', 0⟩, ⟨9, 0, 'o', 0⟩, ⟨3, 0, 'c', 0⟩])) 5 =
      some 1 ∧
    assignedLocalIndex
        (assignLocalIndices true 2 [⟨5, 0, 'o', 0⟩, ⟨9, 0, 'o', 0⟩, ⟨3, 0, 'c', 0⟩]) 5 =
      some 0 :=
  ⟨by decide, by decide, by decide, by decide⟩

/-! ## The assertion of `setupSendInterface` -/

theorem sendStep_assertOk (st : SendState) (e : ExportEntry) :
    (sendStep st e).assertOk =
      (st.assertOk && (decide (st.oldIndex = INT_MAX) || decide (e.get0 ≥ st.oldIndex))) := rfl

/-- A sorted list passes the assertion at every entry, from any state whose
previous index is the start value or not above the list. -/
theorem assertLoop_of_sorted (es : List ExportEntry) (st : SendState)
    (hok : st.assertOk = true)
    (hs : List.Sorted (fun a b : Int => a ≤ b) (es.map ExportEntry.get0))
    (hold : st.oldIndex ≠ INT_MAX → ∀ g ∈ es.map ExportEntry.get0, st.oldIndex ≤ g) :
    (es.foldl sendStep st).assertOk = true := by
  induction es generalizing st with
  | nil => exact hok
  | cons x xs ih =>
    rw [List.foldl_cons]
    rw [List.map_cons] at hs
    apply ih
    · rw [sendStep_assertOk, hok]
      by_cases h : st.oldIndex = INT_MAX
      · simp [h]
      · have := hold h x.get0 (by simp)
        simp [h, this]
    · exact hs.of_cons
    · intro _ g hg
      rw [sendStep_oldIndex]
      exact List.rel_of_sorted_cons hs g hg

/-- When `INT_MAX` does not occur before the last entry, the assertion holds at
every entry exactly if the list, continued from the previous index unless that
is the start value, is sorted. -/
theorem assertLoop_iff (es : List ExportEntry) (st : SendState)
    (h : ∀ g ∈ (es.map ExportEntry.get0).dropLast, g ≠ INT_MAX) :
    (es.foldl sendStep st).assertOk = true ↔
      st.assertOk = true ∧
        (if st.oldIndex = INT_MAX
          then List.Sorted (fun a b : Int => a ≤ b) (es.map ExportEntry.get0)
          else List.Sorted (fun a b : Int => a ≤ b)
            (st.oldIndex :: es.map ExportEntry.get0)) := by
  induction es generalizing st with
  | nil => simp
  | cons x xs ih =>
    cases xs with
    | nil =>
      simp only [List.foldl_cons, List.foldl_nil, sendStep_assertOk, List.map_cons,
        List.map_nil]
      by_cases ho : st.oldIndex = INT_MAX
      · simp [ho]
      · simp [ho]
    | cons y ys =>
      have hx : x.get0 ≠ INT_MAX := h x.get0 (by simp)
      have h2 : ∀ g ∈ (List.map ExportEntry.get0 (y :: ys)).dropLast, g ≠ INT_MAX := by
        intro g hg
        apply h
        simp only [List.map_cons, List.dropLast_cons₂, List.mem_cons]
        right
        simpa using hg
      rw [List.foldl_cons, ih (sendStep st x) h2, sendStep_oldIndex, if_neg hx,
        sendStep_assertOk]
      by_cases ho : st.oldIndex = INT_MAX
      · simp [ho]
      · rw [if_neg ho]
        have hcc : List.Sorted (fun a b : Int => a ≤ b)
            (st.oldIndex :: List.map ExportEntry.get0 (x :: y :: ys)) ↔
            st.oldIndex ≤ x.get0 ∧
              List.Sorted (fun a b : Int => a ≤ b) (List.map ExportEntry.get0 (x :: y :: ys)) :=
          List.sorted_cons_cons
        rw [hcc]
        simp only [ho, decide_False, Bool.false_or, Bool.and_eq_true, decide_eq_true_eq,
          ge_iff_le, List.map_cons]
        tauto

/-! ## Claims on the assertion and on the range of the send indices -/

/-- C13 (amended): for every export list the assertion of the loop of
`setupSendInterface` holds at every entry if the list is sorted in
non-decreasing order of global index; and for every export list in which
`INT_MAX` does not occur as global index before the last entry, the assertion
holds at every entry if and only if the list is sorted, so every such unsorted
list trips the check. -/
theorem setupSendInterface_assert (list : List ExportEntry) (interface : InterfaceMap) :
    (exportSorted list → (setupSendInterfaceState list interface).assertOk = true) ∧
      ((∀ g ∈ (list.map ExportEntry.get0).dropLast, g ≠ INT_MAX) →
        ((setupSendInterfaceState list interface).assertOk = true ↔ exportSorted list)) := by
  constructor
  · intro hs
    unfold setupSendInterfaceState
    exact assertLoop_of_sorted list _ rfl hs (fun h => absurd rfl h)
  · intro h
    unfold setupSendInterfaceState
    rw [assertLoop_iff list _ h]
    simp [exportSorted]

/-- C13 (amended) at the unsorted list `[(5,1,'o'), (3,1,'o')]`, which trips
the check, and at the sorted list `[(3,1,'o'), (INT_MAX,1,'o')]`, which does
not. -/
theorem setupSendInterface_assert_witness :
    (¬ exportSorted [⟨5, 1, 'o'⟩, ⟨3, 1, 'o'⟩] ∧
      (setupSendInterfaceState [⟨5, 1, 'o'⟩, ⟨3, 1, 'o'⟩] []).assertOk = false) ∧
    ((setupSendInterfaceState [⟨5, 1, 'o'⟩, ⟨3, 1, 'o'⟩] []).assertOk = true ↔
      exportSorted [⟨5, 1, 'o'⟩, ⟨3, 1, 'o'⟩]) ∧
    (setupSendInterfaceState [⟨3, 1, 'o'⟩, ⟨2147483647, 1, 'o'⟩] []).assertOk = true :=
  ⟨⟨by decide, by decide⟩,
   (setupSendInterface_assert [⟨5, 1, 'o'⟩, ⟨3, 1, 'o'⟩] []).2 (by decide),
   (setupSendInterface_assert [⟨3, 1, 'o'⟩, ⟨2147483647, 1, 'o'⟩] []).1 (by decide)⟩

/-- C13 as stated fails: the list `[(INT_MAX,1,'o'), (3,1,'o')]` is not sorted
and the assertion holds at both entries, because after the first entry the
previous index is again the start value `INT_MAX`. -/
theorem setupSendInterface_assert_counterexample :
    ¬ exportSorted [⟨2147483647, 1, 'o'⟩, ⟨3, 1, 'o'⟩] ∧
    (setupSendInterfaceState [⟨2147483647, 1, 'o'⟩, ⟨3, 1, 'o'⟩] []).assertOk = true :=
  ⟨by decide, by decide⟩

/-- C14 (amended): for every non-empty export list sorted by global index whose
first global index is not `INT_MAX`, every value in a send list built by
`setupSendInterface` on a fresh map lies in `0, ..., D - 1`, where `D` is the
number of distinct global indices of the list, and the value appended for the
first entry, the first one of the send list of its rank, is 0. -/
theorem setupSendInterface_indices_valid (x : ExportEntry) (xs : List ExportEntry)
    (hs : exportSorted (x :: xs)) (hfirst : x.get0 ≠ INT_MAX) :
    (∀ rank : Int, ∀ v ∈ sendList (setupSendInterface (x :: xs) []) rank,
        0 ≤ v ∧ v < ((distinctGlobals (x :: xs)).length : Int)) ∧
      (sendList (setupSendInterface (x :: xs) []) x.get1).head? = some 0 := by
  have hhead : (List.map ExportEntry.get0 (x :: xs)).head? ≠ some INT_MAX := by
    simpa using hfirst
  have hall : ∀ rank : Int, sendList (setupSendInterface (x :: xs) []) rank =
      expectedSendList (x :: xs) rank := by
    intro rank
    rw [setupSendInterface_sorted (x :: xs) [] rank hs hhead]
    rfl
  constructor
  · intro rank v hv
    rw [hall] at hv
    unfold expectedSendList at hv
    obtain ⟨e, he, rfl⟩ := List.mem_map.mp hv
    have hmem : e.get0 ∈ distinctGlobals (x :: xs) := by
      unfold distinctGlobals
      exact List.mem_dedup.mpr (List.mem_map_of_mem _ (List.mem_of_mem_filter he))
    have hlt := List.indexOf_lt_length.mpr hmem
    unfold exportPosition
    constructor
    · exact Int.ofNat_nonneg _
    · exact_mod_cast hlt
  · rw [hall]
    unfold expectedSendList exportPosition distinctGlobals
    rw [List.filter_cons_of_pos (by simp), List.map_cons, List.head?_cons, List.map_cons,
      indexOf_dedup_head x.get0 (xs.map ExportEntry.get0) hs]
    rfl

/-- C14 (amended) at the export list of the specification's scenario: two
distinct global indices, all send values in `0, 1`, first value 0. -/
theorem setupSendInterface_indices_valid_witness :
    (exportSorted [⟨5, 1, 'o'⟩, ⟨5, 2, 'o'⟩, ⟨9, 2, 'o'⟩] ∧
      (⟨5, 1, 'o'⟩ : ExportEntry).get0 ≠ INT_MAX) ∧
    ((∀ rank : Int, ∀ v ∈ sendList (setupSendInterface
          [⟨5, 1, 'o'⟩, ⟨5, 2, 'o'⟩, ⟨9, 2, 'o'⟩] []) rank,
        0 ≤ v ∧ v < ((distinctGlobals [⟨5, 1, 'o'⟩, ⟨5, 2, 'o'⟩, ⟨9, 2, 'o'⟩]).length : Int)) ∧
      (sendList (setupSendInterface [⟨5, 1, 'o'⟩, ⟨5, 2, 'o'⟩, ⟨9, 2, 'o'⟩] [])
        (⟨5, 1, 'o'⟩ : ExportEntry).get1).head? = some 0) ∧
    (distinctGlobals [⟨5, 1, 'o'⟩, ⟨5, 2, 'o'⟩, ⟨9, 2, 'o'⟩]).length = 2 :=
  ⟨⟨by decide, by decide⟩,
   setupSendInterface_indices_valid ⟨5, 1, 'o'⟩ [⟨5, 2, 'o'⟩, ⟨9, 2, 'o'⟩] (by decide)
     (by decide),
   by decide⟩

/-- C14 as stated fails: the non-empty sorted export list `[(INT_MAX,1,'o')]`
has one distinct global index, and the value appended for its first entry
is -1, which is not in `0, ..., 0`. -/
theorem setupSendInterface_indices_valid_counterexample :
    exportSorted [⟨2147483647, 1, 'o'⟩] ∧
    (distinctGlobals [⟨2147483647, 1, 'o'⟩]).length = 1 ∧
    (sendList (setupSendInterface [⟨2147483647, 1, 'o'⟩] []) 1).head? = some (-1) ∧
    ¬ (∀ v ∈ sendList (setupSendInterface [⟨2147483647, 1, 'o'⟩] []) 1, (0 : Int) ≤ v) :=
  ⟨by decide, by decide, by decide, by decide⟩

end OpmGrid
